import Mathlib

/-!
# PalGate gate opener (ESP32 scanner): beacon decoding, debounce and trigger

A shallow embedding of `palgate_esp_scanner/src/main_scanner.cpp`.

* `uint8_t` values are `Fin 256`; `unsigned long` (32 bit on the ESP32) and `uint64_t`
  values are natural numbers, and every subtraction the source performs on them is
  reduced modulo `2 ^ 32` resp. `2 ^ 64`.
* A read `b[i]` of the manufacturer payload is a checked read: it yields `none` when
  `i` is not below the size of the payload, and the functions that read become
  `Option`-valued.
* The globals of the sketch are the fields of `Globals`; the calls into the Arduino
  libraries are recorded in the order in which they are made, as a list of `Effect`.
-/

namespace PalGate

/-! ## Data model -/

/-- One `uint8_t`. -/
abbrev Byte := Fin 256

/-- The `struct BeaconInfo` of the scanner. -/
structure BeaconInfo where
  uuid : List Byte
  major : Nat
  minor : Nat
  txPower : Int
  rssi : Int
  addrStr : List Char
deriving DecidableEq

/-- The identifier the scanner reacts to (`static const uint8_t target_uuid[16]`). -/
def target_uuid : List Byte :=
  [0xBC, 0x9A, 0x78, 0x56, 0x34, 0x12, 0x34, 0x12,
   0x34, 0x12, 0x34, 0x12, 0x78, 0x56, 0x34, 0x12]

/-- Apple company identifier, iBeacon type and length of the remaining payload. -/
def IBEACON_PREFIX : List Byte := [0x4C, 0x00, 0x02, 0x15]

/-- The read `target_uuid[i]` of the constant table. -/
def targetAt (i : Nat) : Byte := target_uuid.getD i 0

/-- The read `IBEACON_PREFIX[i]` of the constant table. -/
def prefixAt (i : Nat) : Byte := ( IBEACON_PREFIX).getD i 0

/-! ## parseIBeacon -/

/-- The comparison `b[i] == v` on the payload; `none` when `i` is past its end. -/
def byteEq (b : List Byte) (i : Nat) (v : Byte) : Option Bool :=
  (b[i]?).map (fun x => decide (x = v))

/-- The comparison `b[i] != v` on the payload; `none` when `i` is past its end. -/
def byteNe (b : List Byte) (i : Nat) (v : Byte) : Option Bool :=
  (b[i]?).map (fun x => decide (x ≠ v))

/-- Short-circuit `x && y` of C++: `y` is evaluated only when `x` is true. -/
def cAnd (x y : Option Bool) : Option Bool :=
  match x with
  | none => none
  | some false => some false
  | some true => y

/-- Short-circuit `x || y` of C++: `y` is evaluated only when `x` is false. -/
def cOr (x y : Option Bool) : Option Bool :=
  match x with
  | none => none
  | some true => some true
  | some false => y

/-- The matching loop
`for (int i = 0; i < 16; ++i) if (b[4 + i] != tgt(i)) { flag = false; break; }`
entered at index `i` with `n` iterations left; the result is the flag. -/
def uuidLoop (b : List Byte) (tgt : Nat → Byte) : Nat → Nat → Option Bool
  | _, 0 => some true
  | i, n + 1 =>
    match b[4 + i]? with
    | none => none
    | some x => if x ≠ tgt i then some false else uuidLoop b tgt (i + 1) n

/-- The copying loop `for (int i = 0; i < 16; ++i) out.uuid[i] = b[4 + i];`
entered at index `i` with `n` iterations left; the result is the bytes written. -/
def copyLoop (b : List Byte) : Nat → Nat → Option (List Byte)
  | _, 0 => some []
  | i, n + 1 =>
    match b[4 + i]? with
    | none => none
    | some x => (copyLoop b (i + 1) n).map (fun r => x :: r)

/-- The conversion `static_cast<int8_t>(x)` of an octet. -/
def toInt8 (x : Byte) : Int :=
  if x.val < 128 then (x.val : Int) else (x.val : Int) - 256

/-- The expression `(uint16_t(hi) << 8) | uint16_t(lo)` stored into a `uint16_t`. -/
def be16 (hi lo : Byte) : Nat :=
  ((hi.val <<< 8) ||| lo.val) % 65536

/-- The function `parseIBeacon(mfg, out)`: the returned flag and the contents of `out`
afterwards; `none` when a byte outside the payload is read. -/
def parseIBeacon (mfg : List Byte) (out : BeaconInfo) : Option (Bool × BeaconInfo) :=
  if mfg.length < 25 then some (false, out)
  else
    let company_ok :=
      cOr (cAnd (byteEq mfg 0 (prefixAt 0)) (byteEq mfg 1 (prefixAt 1)))
          (cAnd (byteEq mfg 0 (prefixAt 1)) (byteEq mfg 1 (prefixAt 0)))
    match cOr (cOr (company_ok.map not) (byteNe mfg 2 (prefixAt 2)))
              (byteNe mfg 3 (prefixAt 3)) with
    | none => none
    | some true => some (false, out)
    | some false =>
      let fields (o : BeaconInfo) : Option (Bool × BeaconInfo) :=
        match mfg[20]?, mfg[21]?, mfg[22]?, mfg[23]?, mfg[24]? with
        | some b20, some b21, some b22, some b23, some b24 =>
          some (true, { o with major := be16 b20 b21, minor := be16 b22 b23,
                               txPower := toInt8 b24 })
        | _, _, _, _, _ => none
      match uuidLoop mfg targetAt 0 16 with
      | none => none
      | some true =>
        match copyLoop mfg 0 16 with
        | none => none
        | some u => fields { out with uuid := u }
      | some false =>
        match uuidLoop mfg (fun i => targetAt (15 - i)) 0 16 with
        | none => none
        | some false => some (false, out)
        | some true => fields { out with uuid := (List.range 16).map targetAt }

/-- The advertisement the transmitter sketch sends: company 4C 00, type 02, length 15,
the identifier, major 1, minor 1 and tx power -59. -/
def beaconPayload : List Byte :=
  [0x4C, 0x00, 0x02, 0x15] ++ target_uuid ++ [0x00, 0x01, 0x00, 0x01, 0xC5]

/-- A `BeaconInfo` with nothing in it. -/
def emptyInfo : BeaconInfo :=
  { uuid := [], major := 0, minor := 0, txPower := 0, rssi := 0, addrStr := [] }

/-- The header test of `parseIBeacon` on the first four bytes. -/
def headerOk (mfg : List Byte) : Prop :=
  ((mfg[0]? = some 0x4C ∧ mfg[1]? = some 0x00) ∨ (mfg[0]? = some 0x00 ∧ mfg[1]? = some 0x4C))
    ∧ mfg[2]? = some 0x02 ∧ mfg[3]? = some 0x15

instance (mfg : List Byte) : Decidable (headerOk mfg) := by
  unfold headerOk; infer_instance

/-- What `parseIBeacon` leaves in `out` when it accepts `mfg`. -/
def decoded (mfg : List Byte) (out : BeaconInfo) : BeaconInfo :=
  { out with uuid := target_uuid
             major := be16 (mfg.getD 20 0) (mfg.getD 21 0)
             minor := be16 (mfg.getD 22 0) (mfg.getD 23 0)
             txPower := toInt8 (mfg.getD 24 0) }

/-! ## Machine arithmetic and constants -/

/-- The difference `a - b` of two `unsigned long` values (32 bit on the ESP32). -/
def subU32 (a b : Nat) : Nat :=
  (a % 4294967296 + (4294967296 - b % 4294967296)) % 4294967296

/-- The difference `a - b` of two `uint64_t` values. -/
def subU64 (a b : Nat) : Nat :=
  (a % 18446744073709551616 + (18446744073709551616 - b % 18446744073709551616))
    % 18446744073709551616

def LED_PIN : Nat := 2
def SLEEP_MS : Nat := 2800
def SCAN_FAKE_DURATION_SEC : Nat := 3
def DEBOUNCE_MS : Nat := 10000
def LED_ON_US : Nat := 3000 * 1000

/-! ## State and environment -/

/-- The class `DelayNonBlocking`: its two private members. -/
structure DelayNonBlocking where
  start_time : Nat
  active : Bool
deriving DecidableEq

/-- The globals of the sketch that the modelled functions read or write, together with
the function-local `static bool is_scan_running` of `loop()`. -/
structure Globals where
  g_led_on : Bool
  g_is_time_synced_ok : Bool
  g_lastBeacon : BeaconInfo
  g_last_trigger_ms : Nat
  m_detected : Bool
  g_trigger_in_progress : Bool
  g_last_time_gate_opend_us : Nat
  g_scan_delay : DelayNonBlocking
  g_loop_delay : DelayNonBlocking
  is_scan_running : Bool
deriving DecidableEq

/-- The initial values of the globals; `synced` is what `setup()` stored into
`g_is_time_synced_ok`. -/
def bootGlobals (synced : Bool) : Globals :=
  { g_led_on := false
    g_is_time_synced_ok := synced
    g_lastBeacon := emptyInfo
    g_last_trigger_ms := 0
    m_detected := false
    g_trigger_in_progress := false
    g_last_time_gate_opend_us := 0
    g_scan_delay := { start_time := 0, active := false }
    g_loop_delay := { start_time := 0, active := false }
    is_scan_running := false }

/-- A call into a library, in the order the sketch makes them. `enterTriggerGate` marks
the entry into `TriggerGate()`; it is bookkeeping and stands for no library call. -/
inductive Effect where
  | serial (line : String)
  | serialFlush
  | enterTriggerGate
  | setInsecure
  | generateToken (ts : Nat)
  | httpBegin (url : String)
  | httpAddHeader (name value : String)
  | httpGET
  | httpGetString
  | httpErrorToString
  | httpEnd
  | digitalWrite (pin : Nat) (high : Bool)
  | scanStart (seconds : Nat)
  | scanStop
  | scanClearResults
  | handleClient
  | delay (ms : Nat)
  | restart
  | lightSleepMs (ms : Nat)
deriving DecidableEq

/-- The values of `config.h`, which the repository ships only as a template. -/
structure Config where
  PALGATE_PHONE_NUMBER : Nat
  PALGATE_SESSION_TOKEN : String
  PALGATE_TOKEN_TYPE : Int

/-- The two functions declared in `token_generator.h`, whose bodies are not part of the
sources at hand: `hexStringToBytes` yields the decoded bytes or fails, and
`generateToken` maps session, phone number, token type and timestamp to a token. -/
structure TokenLib where
  hexStringToBytes : String → Nat → Option (List Byte)
  generateToken : List Byte → Nat → Int → Nat → String

/-- What the outside world answers during one call of `TriggerGate()`. -/
structure TriggerWorld where
  wifi_connected : Bool
  time_now : Int
  http_begin_ok : Bool
  httpCode : Int
  now_us : Nat

/-- What the outside world answers during one pass of `loop()`: the WiFi mode, the flag
`g_should_reboot` after `handleClient()`, and the clock readings in the order taken. -/
structure LoopWorld where
  wifi_mode_ap : Bool
  g_should_reboot : Bool
  millis_scan_start : Nat
  millis_scan_wait : Nat
  millis_debounce : Nat
  trigger : TriggerWorld
  led_now_us : Nat
  millis_loop_wait : Nat

/-- The part of a `BLEAdvertisedDevice` that `onResult` looks at. -/
structure BLEAdvertisedDevice where
  haveManufacturerData : Bool
  getManufacturerData : List Byte
  getRSSI : Int
  getAddress : List Char

/-! ## ScanCallbacks::onResult -/

/-- The callback `ScanCallbacks::onResult(dev)`; `now_ms` is the reading of `millis()`
and `info` the contents of the uninitialised local `BeaconInfo info`. -/
def onResult (dev : BLEAdvertisedDevice) (now_ms : Nat) (info : BeaconInfo)
    (g : Globals) : Option Globals :=
  if dev.haveManufacturerData then
    match parseIBeacon dev.getManufacturerData info with
    | none => none
    | some (true, info) =>
      let info := { info with rssi := dev.getRSSI }
      let info := { info with addrStr := dev.getAddress.take 17 }
      let g := { g with g_lastBeacon := info }
      if subU32 now_ms g.g_last_trigger_ms > DEBOUNCE_MS then
        some { g with m_detected := true }
      else some g
    | some (false, _) => some g
  else some g

/-! ## DelayNonBlocking::wait -/

/-- The method `wait(duration_ms)`; `millis` is the reading of `millis()` the call takes. -/
def DelayNonBlocking.wait (t : DelayNonBlocking) (duration_ms millis : Nat) :
    Bool × DelayNonBlocking :=
  if !t.active then (false, { t with active := true, start_time := millis })
  else if subU32 millis t.start_time < duration_ms then (false, t)
  else (true, { t with active := false })

/-! ## TriggerGate -/

/-- The address the request goes to. -/
def gateUrl : String :=
  "https://api1.pal-es.com/v1/bt/device/4G600106591/open-gate?outputNum=1"

/-- The body of `TriggerGate()` from the construction of the guard to the last
statement, without the destructor of the guard. -/
def triggerBody (cfg : Config) (lib : TokenLib) (w : TriggerWorld) (g : Globals) :
    Globals × List Effect :=
  let e0 := [Effect.serial "Triggering gate open action..."]
  if !w.wifi_connected then
    (g, e0 ++ [Effect.serial "WiFi disconnected, cannot send request."])
  else
    let e1 := e0 ++ [Effect.setInsecure]
    match lib.hexStringToBytes cfg.PALGATE_SESSION_TOKEN 16 with
    | none => (g, e1 ++ [Effect.serial "Invalid session token format!"])
    | some session =>
      let ts := (w.time_now % 4294967296).toNat
      let token := lib.generateToken session cfg.PALGATE_PHONE_NUMBER
        cfg.PALGATE_TOKEN_TYPE ts
      let e2 := e1 ++ [Effect.generateToken ts, Effect.serial "Starting http.begin()...",
        Effect.httpBegin gateUrl]
      if !w.http_begin_ok then (g, e2 ++ [Effect.serial "http.begin failed"])
      else
        let e3 := e2 ++ [Effect.serial "http.begin took", Effect.httpAddHeader "x-bt-token" token,
          Effect.serial "About to call http.GET()...", Effect.httpGET,
          Effect.serial "http.GET() took"]
        let r : Globals × List Effect :=
          if w.httpCode > 0 then
            let e4 := e3 ++ [Effect.httpGetString, Effect.serial "Response"]
            if w.httpCode ≥ 200 ∧ w.httpCode < 300 then
              ({ g with g_last_time_gate_opend_us := w.now_us % 18446744073709551616,
                        g_led_on := true },
               e4 ++ [Effect.digitalWrite LED_PIN true,
                      Effect.serial "Gate opened (HTTP success). LED ON."])
            else
              (g, e4 ++ [Effect.serial
                "Gate open request returned non-success code; not lighting LED."])
          else
            (g, e3 ++ [Effect.httpErrorToString, Effect.serial "HTTP request failed"])
        ({ r.1 with g_trigger_in_progress := false }, r.2 ++ [Effect.httpEnd])

/-- The function `TriggerGate()`: the compare-and-set on `g_trigger_in_progress`, the
body, and the destructor `~Guard()` that runs on every return from the body. -/
def TriggerGate (cfg : Config) (lib : TokenLib) (w : TriggerWorld) (g : Globals) :
    Globals × List Effect :=
  if g.g_trigger_in_progress then
    (g, [Effect.enterTriggerGate,
         Effect.serial "TriggerGate already in progress, skipping duplicate call."])
  else
    let r := triggerBody cfg lib w { g with g_trigger_in_progress := true }
    ({ r.1 with g_trigger_in_progress := false }, Effect.enterTriggerGate :: r.2)

/-! ## HandleLed -/

/-- The function `HandleLed()`; `now_us` is the reading of `esp_timer_get_time()`. -/
def HandleLed (now_us : Nat) (g : Globals) : Globals × List Effect :=
  let last_time_opened := g.g_last_time_gate_opend_us
  let time_passed_since_last_opened := subU64 now_us last_time_opened
  if last_time_opened ≠ 0 ∧ time_passed_since_last_opened < LED_ON_US then
    if g.g_led_on = false then
      ({ g with g_led_on := true }, [Effect.digitalWrite LED_PIN true])
    else (g, [])
  else
    if g.g_led_on then
      ({ g with g_led_on := false }, [Effect.digitalWrite LED_PIN false])
    else (g, [])

/-! ## loop -/

/-- The block `if (m_detected.load() == true) ...` of `loop()`; `now` is the reading of
`millis()`. The flag returned tells whether the branch with the test of
`g_is_time_synced_ok` was reached, that is, whether the sighting was due. -/
def debounceBlock (cfg : Config) (lib : TokenLib) (now : Nat) (w : TriggerWorld)
    (g : Globals) : Bool × Globals × List Effect :=
  if g.m_detected = true then
    let time_passed_since_last_trigger := subU32 now g.g_last_trigger_ms
    if time_passed_since_last_trigger > DEBOUNCE_MS then
      let g := { g with m_detected := false }
      let g := { g with g_last_trigger_ms := now }
      if g.g_is_time_synced_ok = false then
        (true, { g with m_detected := false },
          [Effect.serial "Time not synced; skipping TriggerGate()"])
      else
        let r := TriggerGate cfg lib w g
        (true, r.1, r.2)
    else (false, { g with m_detected := false }, [])
  else (false, g, [])

/-- The start of a pass of `loop()` in station mode: when no scan is running, start one
and arm `g_scan_delay` with `wait(0)`. -/
def loopStartScan (w : LoopWorld) (g : Globals) : Globals × List Effect :=
  if g.is_scan_running = false then
    ({ g with is_scan_running := true,
              g_scan_delay := (g.g_scan_delay.wait 0 w.millis_scan_start).2 },
     [Effect.scanStart SCAN_FAKE_DURATION_SEC])
  else (g, [])

/-- The rest of a pass of `loop()` once `g_scan_delay.wait(80)` has returned true: stop
the scan, run the debounce block and `HandleLed()`, flush, and sleep when
`g_loop_delay.wait(200)` returns true. -/
def loopProcess (cfg : Config) (lib : TokenLib) (w : LoopWorld) (g : Globals) :
    Globals × List Effect :=
  let g := { g with is_scan_running := false }
  let t := debounceBlock cfg lib w.millis_debounce w.trigger g
  let h := HandleLed w.led_now_us t.2.1
  let l := h.1.g_loop_delay.wait 200 w.millis_loop_wait
  let g := { h.1 with g_loop_delay := l.2 }
  let e := [Effect.scanStop, Effect.scanClearResults] ++ t.2.2 ++ h.2 ++ [Effect.serialFlush]
  if l.1 = false then (g, e)
  else (g, e ++ [Effect.lightSleepMs SLEEP_MS])

/-- One pass of `loop()`. -/
def loop (cfg : Config) (lib : TokenLib) (w : LoopWorld) (g : Globals) :
    Globals × List Effect :=
  if w.wifi_mode_ap then
    (g, Effect.handleClient ::
      (if w.g_should_reboot then [Effect.delay 500, Effect.restart] else []))
  else
    let s := loopStartScan w g
    let d := s.1.g_scan_delay.wait 80 w.millis_scan_wait
    let g := { s.1 with g_scan_delay := d.2 }
    if d.1 = false then (g, s.2)
    else
      let r := loopProcess cfg lib w g
      (r.1, s.2 ++ r.2)

/-! ## Runs of the detection latch -/

/-- One step of a run: a callback of the scanner, or the debounce block of a pass of
`loop()`, each with the clock reading it takes. -/
inductive Step where
  | report (dev : BLEAdvertisedDevice) (now_ms : Nat) (info : BeaconInfo)
  | takeIfDue (now : Nat) (w : TriggerWorld)

/-- The clock reading of a step. -/
def Step.time : Step → Nat
  | .report _ now_ms _ => now_ms
  | .takeIfDue now _ => now

/-- The state after a step and whether the step was a due `takeIfDue`. -/
def runStep (cfg : Config) (lib : TokenLib) (g : Globals) : Step → Option (Bool × Globals)
  | .report dev now_ms info => (onResult dev now_ms info g).map (fun g1 => (false, g1))
  | .takeIfDue now w =>
    let r := debounceBlock cfg lib now w g
    some (r.1, r.2.1)

/-- The readings at which the `takeIfDue` steps of a run were due, in the order of the
run, and the state at its end. -/
def runSteps (cfg : Config) (lib : TokenLib) : Globals → List Step → Option (List Nat × Globals)
  | g, [] => some ([], g)
  | g, s :: rest =>
    match runStep cfg lib g s with
    | none => none
    | some (due, g1) =>
      (runSteps cfg lib g1 rest).map
        (fun r => ((if due then s.time :: r.1 else r.1), r.2))

/-! ## Sample environments -/

/-- A configuration in the shape of `config_template.h`. -/
def sampleConfig : Config :=
  { PALGATE_PHONE_NUMBER := 972501234567
    PALGATE_SESSION_TOKEN := "00112233445566778899AABBCCDDEEFF"
    PALGATE_TOKEN_TYPE := 1 }

/-- A token library that accepts every session string and mints a fixed token. -/
def sampleLib : TokenLib :=
  { hexStringToBytes := fun _ n => some (List.replicate n 0)
    generateToken := fun _ _ _ _ => "token" }

/-- A call in which the network is up and the server answers with `code`. -/
def worldWithCode (code : Int) : TriggerWorld :=
  { wifi_connected := true, time_now := 1700000000, http_begin_ok := true,
    httpCode := code, now_us := 5000000 }

/-- Whether a call of `TriggerGate()` in state `g` gets as far as `http.GET()`: the guard
is free, WiFi is connected, the session token decodes and `http.begin` succeeds. -/
def requestIssued (cfg : Config) (lib : TokenLib) (w : TriggerWorld) (g : Globals) : Prop :=
  g.g_trigger_in_progress = false ∧ w.wifi_connected = true ∧
    (lib.hexStringToBytes cfg.PALGATE_SESSION_TOKEN 16).isSome = true ∧
    w.http_begin_ok = true

instance (cfg : Config) (lib : TokenLib) (w : TriggerWorld) (g : Globals) :
    Decidable (requestIssued cfg lib w g) := by
  unfold requestIssued; infer_instance

/-- The library calls that only `TriggerGate()` makes, and the mark of its entry. -/
def Effect.fromTriggerGate : Effect → Bool
  | .enterTriggerGate => true
  | .setInsecure => true
  | .generateToken _ => true
  | .httpBegin _ => true
  | .httpAddHeader _ _ => true
  | .httpGET => true
  | .httpGetString => true
  | .httpErrorToString => true
  | .httpEnd => true
  | _ => false

/-- A pass of `loop()` in station mode in which the scan delay has run out and the
latch is armed at a reading far beyond the debounce window. -/
def armedPassWorld : LoopWorld :=
  { wifi_mode_ap := false, g_should_reboot := false, millis_scan_start := 20000,
    millis_scan_wait := 20100, millis_debounce := 20100, trigger := worldWithCode 200,
    led_now_us := 20100000, millis_loop_wait := 20100 }

/-- A state in which a scan has been running since reading 20000 and the latch is
armed, with the clock of the device not synchronised. -/
def armedUnsynced : Globals :=
  { bootGlobals false with
    m_detected := true, is_scan_running := true,
    g_scan_delay := { start_time := 20000, active := true } }

/-- A device that advertises the payload of the transmitter sketch. -/
def beaconDevice : BLEAdvertisedDevice :=
  { haveManufacturerData := true, getManufacturerData := beaconPayload, getRSSI := -60,
    getAddress := "AA:BB:CC:DD:EE:FF".toList }

/-- A run in which the beacon is seen three times and the debounce block runs after each
sighting; the second sighting falls into the window opened by the first. -/
def sampleRun : List Step :=
  [Step.report beaconDevice 20000 emptyInfo, Step.takeIfDue 20100 (worldWithCode 200),
   Step.report beaconDevice 25000 emptyInfo, Step.takeIfDue 25100 (worldWithCode 200),
   Step.report beaconDevice 31000 emptyInfo, Step.takeIfDue 31100 (worldWithCode 200)]

/-! ## Traces of runs of the detection latch -/

/-- What one step of a run did: the state before it, the step, whether it was a due
`takeIfDue`, the library calls it made, and the state after it. -/
structure StepRecord where
  before : Globals
  step : Step
  due : Bool
  effects : List Effect
  after : Globals

/-- The record of every step of a run, in the order of the run. A callback makes no
library call that is logged; a debounce block reports its flag and its calls. -/
def runTrace (cfg : Config) (lib : TokenLib) : Globals → List Step → Option (List StepRecord)
  | _, [] => some []
  | g, .report dev now_ms info :: rest =>
    match onResult dev now_ms info g with
    | none => none
    | some g1 =>
      (runTrace cfg lib g1 rest).map
        (fun tr => { before := g, step := .report dev now_ms info, due := false,
                     effects := [], after := g1 } :: tr)
  | g, .takeIfDue now w :: rest =>
    (runTrace cfg lib (debounceBlock cfg lib now w g).2.1 rest).map
      (fun tr => { before := g, step := .takeIfDue now w,
                   due := (debounceBlock cfg lib now w g).1,
                   effects := (debounceBlock cfg lib now w g).2.2,
                   after := (debounceBlock cfg lib now w g).2.1 } :: tr)

/-- Whether a step is a callback of the scanner. -/
def Step.isReport : Step → Bool
  | .report _ _ _ => true
  | .takeIfDue _ _ => false

/-- A callback arms the latch when `m_detected` is set after it. -/
def StepRecord.arms (r : StepRecord) : Bool :=
  r.step.isReport && r.after.m_detected

/-- A device whose manufacturer data is no iBeacon of the target. -/
def otherDevice : BLEAdvertisedDevice :=
  { haveManufacturerData := true, getManufacturerData := [0x4C, 0x00, 0x10, 0x05],
    getRSSI := -80, getAddress := "11:22:33:44:55:66".toList }

/-- Steps after a due block at 20100: a foreign advertisement, a sighting inside the
window, and two debounce blocks far beyond the window. -/
def laterSteps : List Step :=
  [Step.report otherDevice 21000 emptyInfo, Step.report beaconDevice 25000 emptyInfo,
   Step.takeIfDue 50000 (worldWithCode 200), Step.takeIfDue 90000 (worldWithCode 200)]

/-- The boot state with the latch armed. -/
def armedBoot : Globals :=
  { bootGlobals true with m_detected := true }

/-- A run in the first ten seconds after boot: sightings at 3000 and 10000, each followed
by a debounce block, and a late block at 60000. -/
def bootWindowRun : List Step :=
  [Step.report beaconDevice 3000 emptyInfo, Step.takeIfDue 3100 (worldWithCode 200),
   Step.report beaconDevice 10000 emptyInfo, Step.takeIfDue 10100 (worldWithCode 200),
   Step.takeIfDue 60000 (worldWithCode 200)]

/-! ## Runs of loop -/

/-- What one pass of `loop()` did: the state before it, the answers of the outside
world, the library calls in order, and the state after it. -/
structure PassRecord where
  before : Globals
  world : LoopWorld
  effects : List Effect
  after : Globals

/-- The record of every pass of a run of `loop()`, one world per pass. -/
def runLoop (cfg : Config) (lib : TokenLib) : Globals → List LoopWorld → List PassRecord
  | _, [] => []
  | g, w :: ws =>
    { before := g, world := w, effects := (loop cfg lib w g).2,
      after := (loop cfg lib w g).1 } :: runLoop cfg lib (loop cfg lib w g).1 ws

/-- The pass called `g_manage_scan->start(...)`. -/
def PassRecord.startsScan (r : PassRecord) : Bool :=
  decide (Effect.scanStart SCAN_FAKE_DURATION_SEC ∈ r.effects)

/-- The pass called `g_manage_scan->stop()`, after which it runs the debounce block. -/
def PassRecord.stopsScan (r : PassRecord) : Bool :=
  decide (Effect.scanStop ∈ r.effects)

/-- The pass called `lightSleepMs(SLEEP_MS)`. -/
def PassRecord.sleeps (r : PassRecord) : Bool :=
  decide (Effect.lightSleepMs SLEEP_MS ∈ r.effects)

/-- The pass armed `g_loop_delay`: the timer was inactive before and is active after. -/
def PassRecord.armsLoopDelay (r : PassRecord) : Bool :=
  !r.before.g_loop_delay.active && r.after.g_loop_delay.active

/-- The reading `millis()` gave to `g_scan_delay.wait(0)` in the last pass of the list
that started a scan; `acc` when no pass of the list started one. -/
def scanStartedAt : Option Nat → List PassRecord → Option Nat
  | acc, [] => acc
  | acc, r :: rest =>
    scanStartedAt (if r.startsScan then some r.world.millis_scan_start else acc) rest

/-- The reading `millis()` gave to `g_loop_delay.wait(200)` in the last pass of the list
that armed `g_loop_delay`; `acc` when no pass of the list armed it. -/
def loopDelayArmedAt : Option Nat → List PassRecord → Option Nat
  | acc, [] => acc
  | acc, r :: rest =>
    loopDelayArmedAt (if r.armsLoopDelay then some r.world.millis_loop_wait else acc) rest

/-- What holds between passes of `loop()` in station mode: a scan is running exactly
when `g_scan_delay` is armed, and an armed timer carries the reading at which it was
armed, `accS` for `g_scan_delay` and `accL` for `g_loop_delay`. -/
def SchedulerInv (accS accL : Option Nat) (g : Globals) : Prop :=
  g.is_scan_running = g.g_scan_delay.active ∧
  (g.g_scan_delay.active = true → accS = some g.g_scan_delay.start_time) ∧
  (g.g_loop_delay.active = true → accL = some g.g_loop_delay.start_time)

/-- The record of one pass of `loop()`. -/
def passRecord (cfg : Config) (lib : TokenLib) (w : LoopWorld) (g : Globals) : PassRecord :=
  { before := g, world := w, effects := (loop cfg lib w g).2, after := (loop cfg lib w g).1 }

/-- The library calls that only the scheduling part of `loop()` makes. -/
def Effect.fromScheduler : Effect → Bool
  | .scanStart _ => true
  | .scanStop => true
  | .scanClearResults => true
  | .serialFlush => true
  | .lightSleepMs _ => true
  | _ => false

/-- A pass of `loop()` in station mode whose clock readings are all `ms`. -/
def passAt (ms : Nat) : LoopWorld :=
  { wifi_mode_ap := false, g_should_reboot := false, millis_scan_start := ms,
    millis_scan_wait := ms, millis_debounce := ms, trigger := worldWithCode 200,
    led_now_us := ms * 1000, millis_loop_wait := ms }

/-- Passes at 1000, 1050, 1090, 1100, 1190, 1200, 1290 and 1300 ms. -/
def sampleWorlds : List LoopWorld :=
  [passAt 1000, passAt 1050, passAt 1090, passAt 1100, passAt 1190, passAt 1200,
   passAt 1290, passAt 1300]

/-- The passes of the sample run of `loop()` from the boot state. -/
def sampleTrace : List PassRecord :=
  runLoop sampleConfig sampleLib (bootGlobals true) sampleWorlds

/-- The pass of the sample run at 1290 ms, the seventh. -/
def samplePass : PassRecord :=
  (sampleTrace.drop 6).headD (passRecord sampleConfig sampleLib (passAt 0) (bootGlobals true))

theorem uuidLoop_spec (b : List Byte) (tgt : Nat → Byte) :
    ∀ (n i : Nat), 4 + i + n ≤ b.length →
      ∃ r, uuidLoop b tgt i n = some r ∧
        (r = true ↔ ∀ j, j < n → b[4 + i + j]? = some (tgt (i + j))) := by
  intro n
  induction n with
  | zero => intro i _; exact ⟨true, rfl, by simp⟩
  | succ n ih =>
    intro i hlen
    have hi : 4 + i < b.length := by omega
    obtain ⟨r, hr, hiff⟩ := ih (i + 1) (by omega)
    by_cases hx : b[4 + i] = tgt i
    · refine ⟨r, ?_, ?_⟩
      · simp [uuidLoop, List.getElem?_eq_getElem hi, hx, hr]
      · rw [hiff]
        constructor
        · intro h j hj
          rcases Nat.eq_zero_or_pos j with h0 | hpos
          · subst h0; simp [List.getElem?_eq_getElem hi, hx]
          · have := h (j - 1) (by omega)
            have e1 : 4 + (i + 1) + (j - 1) = 4 + i + j := by omega
            have e2 : i + 1 + (j - 1) = i + j := by omega
            rwa [e1, e2] at this
        · intro h j hj
          have := h (j + 1) (by omega)
          have e1 : 4 + i + (j + 1) = 4 + (i + 1) + j := by omega
          have e2 : i + (j + 1) = i + 1 + j := by omega
          rwa [e1, e2] at this
    · refine ⟨false, ?_, ?_⟩
      · simp [uuidLoop, List.getElem?_eq_getElem hi, hx]
      · constructor
        · intro h; cases h
        · intro h
          have := h 0 (by omega)
          simp [List.getElem?_eq_getElem hi] at this
          exact absurd this hx

theorem copyLoop_spec (b : List Byte) :
    ∀ (n i : Nat), 4 + i + n ≤ b.length →
      copyLoop b i n = some ((b.drop (4 + i)).take n) := by
  intro n
  induction n with
  | zero => intro i _; simp [copyLoop]
  | succ n ih =>
    intro i hlen
    have hi : 4 + i < b.length := by omega
    have hd : b.drop (4 + i) = b[4 + i] :: b.drop (4 + (i + 1)) :=
      List.drop_eq_getElem_cons hi
    simp [copyLoop, List.getElem?_eq_getElem hi, ih (i + 1) (by omega), hd]

theorem slice_eq_iff (b t : List Byte) (ht : t.length = 16) :
    (b.drop 4).take 16 = t ↔ ∀ j, j < 16 → b[4 + j]? = t[j]? := by
  constructor
  · intro h j hj
    rw [← h, List.getElem?_take_of_lt hj, List.getElem?_drop]
  · intro h
    apply List.ext_getElem?
    intro k
    by_cases hk : k < 16
    · rw [List.getElem?_take_of_lt hk, List.getElem?_drop]; exact h k hk
    · have h1 : ((b.drop 4).take 16).length ≤ k := by
        simp only [List.length_take, List.length_drop]; omega
      rw [List.getElem?_eq_none h1, List.getElem?_eq_none (by omega)]

theorem target_forward (j : Nat) (hj : j < 16) : target_uuid[j]? = some (targetAt j) := by
  interval_cases j <;> rfl

theorem target_reversed (j : Nat) (hj : j < 16) :
    target_uuid.reverse[j]? = some (targetAt (15 - j)) := by
  interval_cases j <;> rfl

theorem uuidLoop_forward (b : List Byte) (hb : 20 ≤ b.length) :
    uuidLoop b targetAt 0 16 = some (decide ((b.drop 4).take 16 = target_uuid)) := by
  obtain ⟨r, hr, hiff⟩ := uuidLoop_spec b targetAt 16 0 (by omega)
  rw [hr]
  congr 1
  have key : (b.drop 4).take 16 = target_uuid ↔ r = true := by
    rw [hiff, slice_eq_iff b target_uuid rfl]
    constructor
    · intro h j hj
      have := h j hj
      rw [target_forward j hj] at this
      simpa using this
    · intro h j hj
      have := h j hj
      rw [target_forward j hj]
      simpa using this
  cases r <;> simp_all

theorem uuidLoop_reversed (b : List Byte) (hb : 20 ≤ b.length) :
    uuidLoop b (fun i => targetAt (15 - i)) 0 16
      = some (decide ((b.drop 4).take 16 = target_uuid.reverse)) := by
  obtain ⟨r, hr, hiff⟩ := uuidLoop_spec b (fun i => targetAt (15 - i)) 16 0 (by omega)
  rw [hr]
  congr 1
  have key : (b.drop 4).take 16 = target_uuid.reverse ↔ r = true := by
    rw [hiff, slice_eq_iff b target_uuid.reverse rfl]
    constructor
    · intro h j hj
      have := h j hj
      rw [target_reversed j hj] at this
      simpa using this
    · intro h j hj
      have := h j hj
      rw [target_reversed j hj]
      simpa using this
  cases r <;> simp_all

theorem cAnd_some (a b : Bool) : cAnd (some a) (some b) = some (a && b) := by
  cases a <;> rfl

theorem cOr_some (a b : Bool) : cOr (some a) (some b) = some (a || b) := by
  cases a <;> rfl

theorem getElem?_getD_of_lt (mfg : List Byte) (i : Nat) (h : i < mfg.length) :
    mfg[i]? = some (mfg.getD i 0) := by
  rw [List.getD_eq_getElem?_getD, List.getElem?_eq_getElem h]; rfl

theorem header_check (mfg : List Byte) (h : 4 ≤ mfg.length) :
    cOr (cOr ((cOr (cAnd (byteEq mfg 0 (prefixAt 0)) (byteEq mfg 1 (prefixAt 1)))
                   (cAnd (byteEq mfg 0 (prefixAt 1)) (byteEq mfg 1 (prefixAt 0)))).map not)
             (byteNe mfg 2 (prefixAt 2)))
        (byteNe mfg 3 (prefixAt 3)) = some (decide (¬ headerOk mfg)) := by
  have h0 := getElem?_getD_of_lt mfg 0 (by omega)
  have h1 := getElem?_getD_of_lt mfg 1 (by omega)
  have h2 := getElem?_getD_of_lt mfg 2 (by omega)
  have h3 := getElem?_getD_of_lt mfg 3 (by omega)
  have p0 : prefixAt 0 = 0x4C := rfl
  have p1 : prefixAt 1 = 0x00 := rfl
  have p2 : prefixAt 2 = 0x02 := rfl
  have p3 : prefixAt 3 = 0x15 := rfl
  unfold headerOk byteEq byteNe
  simp only [h0, h1, h2, h3, p0, p1, p2, p3, Option.map_some', cAnd_some, cOr_some,
    Option.some.injEq]
  generalize mfg.getD 0 0 = x0
  generalize mfg.getD 1 0 = x1
  generalize mfg.getD 2 0 = x2
  generalize mfg.getD 3 0 = x3
  by_cases e2 : x2 = 0x02 <;> by_cases e3 : x3 = 0x15 <;>
    by_cases e0 : x0 = 0x4C <;> by_cases e1 : x1 = 0x00 <;> simp [e0, e1, e2, e3]

theorem parseIBeacon_long (mfg : List Byte) (out : BeaconInfo) (h : 25 ≤ mfg.length) :
    parseIBeacon mfg out = some
      (if headerOk mfg ∧ ((mfg.drop 4).take 16 = target_uuid
          ∨ (mfg.drop 4).take 16 = target_uuid.reverse)
       then (true, decoded mfg out) else (false, out)) := by
  have hcopy : copyLoop mfg 0 16 = some ((mfg.drop 4).take 16) :=
    copyLoop_spec mfg 16 0 (by omega)
  have hf := uuidLoop_forward mfg (by omega)
  have hr := uuidLoop_reversed mfg (by omega)
  have h20 := getElem?_getD_of_lt mfg 20 (by omega)
  have h21 := getElem?_getD_of_lt mfg 21 (by omega)
  have h22 := getElem?_getD_of_lt mfg 22 (by omega)
  have h23 := getElem?_getD_of_lt mfg 23 (by omega)
  have h24 := getElem?_getD_of_lt mfg 24 (by omega)
  have hmap : (List.range 16).map targetAt = target_uuid := by decide
  have hlen : ¬ mfg.length < 25 := by omega
  unfold parseIBeacon
  simp only [if_neg hlen, header_check mfg (by omega), hf, hr, hcopy, h20, h21, h22, h23, h24,
    hmap]
  by_cases hh : headerOk mfg
  · by_cases ef : (mfg.drop 4).take 16 = target_uuid
    · have c : headerOk mfg ∧ ((mfg.drop 4).take 16 = target_uuid
          ∨ (mfg.drop 4).take 16 = target_uuid.reverse) := ⟨hh, Or.inl ef⟩
      rw [if_pos c]
      simp only [hh, not_true_eq_false, decide_False, decide_True, ef, decoded]
    · by_cases er : (mfg.drop 4).take 16 = target_uuid.reverse
      · have c : headerOk mfg ∧ ((mfg.drop 4).take 16 = target_uuid
            ∨ (mfg.drop 4).take 16 = target_uuid.reverse) := ⟨hh, Or.inr er⟩
        rw [if_pos c, decide_eq_false ef, decide_eq_true er]
        simp only [hh, not_true_eq_false, decide_False, decoded]
      · have c : ¬ (headerOk mfg ∧ ((mfg.drop 4).take 16 = target_uuid
            ∨ (mfg.drop 4).take 16 = target_uuid.reverse)) := by
          rintro ⟨_, h1 | h1⟩
          · exact ef h1
          · exact er h1
        rw [if_neg c, decide_eq_false ef, decide_eq_false er]
        simp only [hh, not_true_eq_false, decide_False]
  · have c : ¬ (headerOk mfg ∧ ((mfg.drop 4).take 16 = target_uuid
        ∨ (mfg.drop 4).take 16 = target_uuid.reverse)) := fun hc => hh hc.1
    rw [if_neg c]
    simp only [hh, not_false_eq_true, decide_True]

theorem be16_eq (hi lo : Byte) : be16 hi lo = 256 * hi.val + lo.val := by
  have h1 : lo.val < 2 ^ 8 := lo.isLt
  have h2 : hi.val < 256 := hi.isLt
  unfold be16
  rw [Nat.shiftLeft_eq, Nat.mul_comm, ← Nat.mul_add_lt_is_or h1]
  omega

theorem parseIBeacon_total (mfg : List Byte) (out : BeaconInfo) :
    ∃ r, parseIBeacon mfg out = some r := by
  by_cases h : 25 ≤ mfg.length
  · exact ⟨_, parseIBeacon_long mfg out h⟩
  · exact ⟨(false, out), by unfold parseIBeacon; rw [if_pos (by omega)]⟩

theorem parseIBeacon_accept_inv (mfg : List Byte) (out o : BeaconInfo)
    (h : parseIBeacon mfg out = some (true, o)) :
    25 ≤ mfg.length ∧ headerOk mfg ∧
      ((mfg.drop 4).take 16 = target_uuid ∨ (mfg.drop 4).take 16 = target_uuid.reverse) ∧
      o = decoded mfg out := by
  by_cases hl : 25 ≤ mfg.length
  · rw [parseIBeacon_long mfg out hl] at h
    split at h
    · rename_i c
      simp only [Option.some.injEq, Prod.mk.injEq, true_and] at h
      exact ⟨hl, c.1, c.2, h.symm⟩
    · simp at h
  · unfold parseIBeacon at h
    rw [if_pos (by omega)] at h
    simp at h

theorem parseIBeacon_reject_inv (mfg : List Byte) (out o : BeaconInfo)
    (h : parseIBeacon mfg out = some (false, o)) : o = out := by
  by_cases hl : 25 ≤ mfg.length
  · rw [parseIBeacon_long mfg out hl] at h
    split at h
    · simp at h
    · simp only [Option.some.injEq, Prod.mk.injEq, true_and] at h
      exact h.symm
  · unfold parseIBeacon at h
    rw [if_pos (by omega)] at h
    simp only [Option.some.injEq, Prod.mk.injEq, true_and] at h
    exact h.symm

/-! ## C2 - C4: the decoder -/

/-- C2: for every payload, `parseIBeacon` returns (it reads no byte outside the payload),
and it returns true exactly when the payload has at least 25 bytes, starts with 4C 00 or
00 4C, then 02 and 15, and bytes 4..19 are `target_uuid` forwards or fully reversed. -/
theorem parseIBeacon_accepts_iff (mfg : List Byte) (out : BeaconInfo) :
    ∃ r, parseIBeacon mfg out = some r ∧
      (r.1 = true ↔
        25 ≤ mfg.length ∧
        ((mfg[0]? = some 0x4C ∧ mfg[1]? = some 0x00) ∨
          (mfg[0]? = some 0x00 ∧ mfg[1]? = some 0x4C)) ∧
        mfg[2]? = some 0x02 ∧ mfg[3]? = some 0x15 ∧
        ((mfg.drop 4).take 16 = target_uuid ∨ (mfg.drop 4).take 16 = target_uuid.reverse)) ∧
      (r.1 = false → r.2 = out) := by
  by_cases hl : 25 ≤ mfg.length
  · refine ⟨_, parseIBeacon_long mfg out hl, ?_, ?_⟩
    · split
      · rename_i c
        simp only [true_iff]
        exact ⟨hl, c.1.1, c.1.2.1, c.1.2.2, c.2⟩
      · rename_i c
        simp only [Bool.false_eq_true, false_iff]
        rintro ⟨_, h1, h2, h3, h4⟩
        exact c ⟨⟨h1, h2, h3⟩, h4⟩
    · split
      · intro h; cases h
      · intro _; rfl
  · refine ⟨(false, out), by unfold parseIBeacon; rw [if_pos (by omega)], ?_, fun _ => rfl⟩
    simp only [Bool.false_eq_true, false_iff]
    rintro ⟨h, _⟩
    exact hl h

/-- C3: two payloads of at least 25 bytes that differ only in carrying `target_uuid`
forwards resp. byte-reversed in bytes 4..19 are both accepted or both rejected, and when
accepted they leave the same uuid, major, minor and txPower in `out`; whenever
`parseIBeacon` accepts a payload, `out.uuid` is `target_uuid` in forward order. -/
theorem parseIBeacon_forward_reversed_agree (pre post : List Byte) (out1 out2 : BeaconInfo)
    (hpre : pre.length = 4) (hpost : 5 ≤ post.length) :
    (∃ (ok : Bool) (o1 o2 : BeaconInfo),
      parseIBeacon (pre ++ target_uuid ++ post) out1 = some (ok, o1) ∧
      parseIBeacon (pre ++ target_uuid.reverse ++ post) out2 = some (ok, o2) ∧
      (ok = true → o1.uuid = o2.uuid ∧ o1.major = o2.major ∧ o1.minor = o2.minor ∧
        o1.txPower = o2.txPower)) ∧
    (∀ (mfg : List Byte) (out o : BeaconInfo),
      parseIBeacon mfg out = some (true, o) → o.uuid = target_uuid) := by
  have hlt : target_uuid.length = 16 := rfl
  have hlr : target_uuid.reverse.length = 16 := rfl
  have l1 : 25 ≤ (pre ++ target_uuid ++ post).length := by
    simp only [List.length_append, hpre, hlt]; omega
  have l2 : 25 ≤ (pre ++ target_uuid.reverse ++ post).length := by
    simp only [List.length_append, hpre, hlr]; omega
  have d1 : ((pre ++ target_uuid ++ post).drop 4).take 16 = target_uuid := by
    rw [List.append_assoc, List.drop_append_of_le_length (by omega), ← hpre, List.drop_length,
      List.nil_append, ← hlt, List.take_left]
  have d2 : ((pre ++ target_uuid.reverse ++ post).drop 4).take 16 = target_uuid.reverse := by
    rw [List.append_assoc, List.drop_append_of_le_length (by omega), ← hpre, List.drop_length,
      List.nil_append]
    conv_lhs => rw [← hlr]
    rw [List.take_left]
  have hg : ∀ (u : List Byte) (i : Nat), i < 4 → (pre ++ u ++ post)[i]? = pre[i]? := by
    intro u i hi
    rw [List.append_assoc, List.getElem?_append_left (by omega)]
  have hhead : headerOk (pre ++ target_uuid ++ post)
      ↔ headerOk (pre ++ target_uuid.reverse ++ post) := by
    unfold headerOk
    rw [hg _ 0 (by omega), hg _ 1 (by omega), hg _ 2 (by omega), hg _ 3 (by omega),
      hg _ 0 (by omega), hg _ 1 (by omega), hg _ 2 (by omega), hg _ 3 (by omega)]
  have hd : ∀ (i : Nat), 20 ≤ i →
      (pre ++ target_uuid ++ post).getD i 0 = (pre ++ target_uuid.reverse ++ post).getD i 0 := by
    intro i hi
    have e1 : (pre ++ target_uuid).length = 20 := by simp [hpre, hlt]
    have e2 : (pre ++ target_uuid.reverse).length = 20 := by
      rw [List.length_append, hpre, hlr]
    rw [List.getD_eq_getElem?_getD, List.getD_eq_getElem?_getD,
      List.getElem?_append_right (by omega), List.getElem?_append_right (by omega), e1, e2]
  refine ⟨?_, ?_⟩
  · rw [parseIBeacon_long _ out1 l1, parseIBeacon_long _ out2 l2, d1, d2]
    by_cases hh : headerOk (pre ++ target_uuid ++ post)
    · have hh2 := hhead.mp hh
      refine ⟨true, decoded (pre ++ target_uuid ++ post) out1,
        decoded (pre ++ target_uuid.reverse ++ post) out2, ?_, ?_, ?_⟩
      · rw [if_pos ⟨hh, Or.inl rfl⟩]
      · rw [if_pos ⟨hh2, Or.inr rfl⟩]
      · intro _
        simp only [decoded, hd 20 (by omega), hd 21 (by omega), hd 22 (by omega),
          hd 23 (by omega), hd 24 (by omega), and_self]
    · have hh2 : ¬ headerOk (pre ++ target_uuid.reverse ++ post) := fun c => hh (hhead.mpr c)
      refine ⟨false, out1, out2, ?_, ?_, ?_⟩
      · rw [if_neg (fun c => hh c.1)]
      · rw [if_neg (fun c => hh2 c.1)]
      · intro c; cases c
  · intro mfg out o h
    rw [(parseIBeacon_accept_inv mfg out o h).2.2.2]
    rfl

/-- C3 at the advertisement of the transmitter sketch and its byte-reversed twin. -/
theorem parseIBeacon_forward_reversed_agree_witness :
    ([0x4C, 0x00, 0x02, 0x15] : List Byte).length = 4 ∧
    5 ≤ ([0x00, 0x01, 0x00, 0x01, 0xC5] : List Byte).length ∧
    ((∃ (ok : Bool) (o1 o2 : BeaconInfo),
      parseIBeacon ([0x4C, 0x00, 0x02, 0x15] ++ target_uuid ++ [0x00, 0x01, 0x00, 0x01, 0xC5])
        emptyInfo = some (ok, o1) ∧
      parseIBeacon ([0x4C, 0x00, 0x02, 0x15] ++ target_uuid.reverse
        ++ [0x00, 0x01, 0x00, 0x01, 0xC5]) emptyInfo = some (ok, o2) ∧
      (ok = true → o1.uuid = o2.uuid ∧ o1.major = o2.major ∧ o1.minor = o2.minor ∧
        o1.txPower = o2.txPower)) ∧
    (∀ (mfg : List Byte) (out o : BeaconInfo),
      parseIBeacon mfg out = some (true, o) → o.uuid = target_uuid)) :=
  ⟨by decide, by decide,
    parseIBeacon_forward_reversed_agree [0x4C, 0x00, 0x02, 0x15] [0x00, 0x01, 0x00, 0x01, 0xC5]
      emptyInfo emptyInfo (by decide) (by decide)⟩

/-- C4: when `parseIBeacon` accepts a payload, major is `256 * b[20] + b[21]`, minor is
`256 * b[22] + b[23]`, both at most 65535, and txPower is `b[24]` read as a signed byte;
trailing bytes 00 01 00 01 C5 decode to major 1, minor 1, tx power -59. -/
theorem parseIBeacon_fields (mfg : List Byte) (out o : BeaconInfo)
    (h : parseIBeacon mfg out = some (true, o)) :
    ∃ b20 b21 b22 b23 b24 : Byte,
      mfg[20]? = some b20 ∧ mfg[21]? = some b21 ∧ mfg[22]? = some b22 ∧
      mfg[23]? = some b23 ∧ mfg[24]? = some b24 ∧
      o.major = 256 * b20.val + b21.val ∧ o.major ≤ 65535 ∧
      o.minor = 256 * b22.val + b23.val ∧ o.minor ≤ 65535 ∧
      o.txPower = (if b24.val < 128 then (b24.val : Int) else (b24.val : Int) - 256) ∧
      ((mfg.drop 20).take 5 = [0x00, 0x01, 0x00, 0x01, 0xC5] →
        o.major = 1 ∧ o.minor = 1 ∧ o.txPower = -59) := by
  obtain ⟨hl, _, _, ho⟩ := parseIBeacon_accept_inv mfg out o h
  have h20 := getElem?_getD_of_lt mfg 20 (by omega)
  have h21 := getElem?_getD_of_lt mfg 21 (by omega)
  have h22 := getElem?_getD_of_lt mfg 22 (by omega)
  have h23 := getElem?_getD_of_lt mfg 23 (by omega)
  have h24 := getElem?_getD_of_lt mfg 24 (by omega)
  refine ⟨_, _, _, _, _, h20, h21, h22, h23, h24, ?_, ?_, ?_, ?_, ?_, ?_⟩
  · rw [ho]; exact be16_eq _ _
  · rw [ho]; show be16 _ _ ≤ 65535; unfold be16; omega
  · rw [ho]; exact be16_eq _ _
  · rw [ho]; show be16 _ _ ≤ 65535; unfold be16; omega
  · rw [ho]; rfl
  · intro ht
    have g : ∀ (j : Nat), j < 5 →
        mfg[20 + j]? = ([0x00, 0x01, 0x00, 0x01, 0xC5] : List Byte)[j]? := by
      intro j hj
      rw [← ht, List.getElem?_take_of_lt hj, List.getElem?_drop]
    have g0 := g 0 (by omega)
    have g1 := g 1 (by omega)
    have g2 := g 2 (by omega)
    have g3 := g 3 (by omega)
    have g4 := g 4 (by omega)
    simp only [Nat.add_zero, Nat.reduceAdd, h20, h21, h22, h23, h24] at g0 g1 g2 g3 g4
    simp only [List.getElem?_cons_zero, List.getElem?_cons_succ, Option.some.injEq]
      at g0 g1 g2 g3 g4
    rw [ho]
    simp only [decoded, g0, g1, g2, g3, g4]
    decide

/-- C4 at the advertisement of the transmitter sketch: it is accepted and decodes to
major 1, minor 1 and tx power -59. -/
theorem parseIBeacon_fields_witness :
    parseIBeacon beaconPayload emptyInfo
        = some (true, { emptyInfo with uuid := target_uuid, major := 1, minor := 1,
                                       txPower := -59 }) ∧
    ∃ b20 b21 b22 b23 b24 : Byte,
      beaconPayload[20]? = some b20 ∧ beaconPayload[21]? = some b21 ∧
      beaconPayload[22]? = some b22 ∧ beaconPayload[23]? = some b23 ∧
      beaconPayload[24]? = some b24 ∧
      (1 : Nat) = 256 * b20.val + b21.val ∧ (1 : Nat) ≤ 65535 ∧
      (1 : Nat) = 256 * b22.val + b23.val ∧ (1 : Nat) ≤ 65535 ∧
      (-59 : Int) = (if b24.val < 128 then (b24.val : Int) else (b24.val : Int) - 256) ∧
      ((beaconPayload.drop 20).take 5 = [0x00, 0x01, 0x00, 0x01, 0xC5] →
        (1 : Nat) = 1 ∧ (1 : Nat) = 1 ∧ (-59 : Int) = -59) :=
  ⟨by decide,
    parseIBeacon_fields beaconPayload emptyInfo
      { emptyInfo with uuid := target_uuid, major := 1, minor := 1, txPower := -59 }
      (by decide)⟩

/-! ## Lemmas on TriggerGate -/

theorem triggerBody_frame (cfg : Config) (lib : TokenLib) (w : TriggerWorld) (g : Globals) :
    (triggerBody cfg lib w g).1.m_detected = g.m_detected ∧
    (triggerBody cfg lib w g).1.g_last_trigger_ms = g.g_last_trigger_ms ∧
    (triggerBody cfg lib w g).1.g_is_time_synced_ok = g.g_is_time_synced_ok ∧
    (triggerBody cfg lib w g).1.g_lastBeacon = g.g_lastBeacon ∧
    (triggerBody cfg lib w g).1.g_scan_delay = g.g_scan_delay ∧
    (triggerBody cfg lib w g).1.g_loop_delay = g.g_loop_delay ∧
    (triggerBody cfg lib w g).1.is_scan_running = g.is_scan_running := by
  unfold triggerBody
  cases w.wifi_connected <;> cases lib.hexStringToBytes cfg.PALGATE_SESSION_TOKEN 16 <;>
    cases w.http_begin_ok <;> simp
  split_ifs <;> simp

theorem TriggerGate_frame (cfg : Config) (lib : TokenLib) (w : TriggerWorld) (g : Globals) :
    (TriggerGate cfg lib w g).1.m_detected = g.m_detected ∧
    (TriggerGate cfg lib w g).1.g_last_trigger_ms = g.g_last_trigger_ms ∧
    (TriggerGate cfg lib w g).1.g_is_time_synced_ok = g.g_is_time_synced_ok ∧
    (TriggerGate cfg lib w g).1.g_lastBeacon = g.g_lastBeacon ∧
    (TriggerGate cfg lib w g).1.g_scan_delay = g.g_scan_delay ∧
    (TriggerGate cfg lib w g).1.g_loop_delay = g.g_loop_delay ∧
    (TriggerGate cfg lib w g).1.is_scan_running = g.is_scan_running := by
  unfold TriggerGate
  cases h : g.g_trigger_in_progress
  · have := triggerBody_frame cfg lib w { g with g_trigger_in_progress := true }
    simpa using this
  · simp

/-! ## C5 - C8: the trigger controller -/

/-- C5: a call of `TriggerGate` that finds the guard `g_trigger_in_progress` free leaves
it free when it returns, whatever the outside world answers: WiFi down, a session token
that does not decode, `http.begin` failing, a transport error, any status code. -/
theorem TriggerGate_releases_guard (cfg : Config) (lib : TokenLib) (w : TriggerWorld)
    (g : Globals) (h : g.g_trigger_in_progress = false) :
    (TriggerGate cfg lib w g).1.g_trigger_in_progress = false := by
  unfold TriggerGate
  rw [h]
  rfl

/-- C5 at the boot state, for a call answered with status 503. -/
theorem TriggerGate_releases_guard_witness :
    (bootGlobals true).g_trigger_in_progress = false ∧
    (TriggerGate sampleConfig sampleLib (worldWithCode 503)
      (bootGlobals true)).1.g_trigger_in_progress = false :=
  ⟨rfl, TriggerGate_releases_guard sampleConfig sampleLib (worldWithCode 503)
    (bootGlobals true) rfl⟩

/-- C6: a call of `TriggerGate` while `g_trigger_in_progress` is set changes no global
(the guard stays set, the time of the last opening and the LED state stay as they were)
and does nothing but print the skip message: no token, no HTTP request, no pin write. -/
theorem TriggerGate_skips_when_held (cfg : Config) (lib : TokenLib) (w : TriggerWorld)
    (g : Globals) (h : g.g_trigger_in_progress = true) :
    (TriggerGate cfg lib w g).1 = g ∧
    (TriggerGate cfg lib w g).2 = [Effect.enterTriggerGate,
      Effect.serial "TriggerGate already in progress, skipping duplicate call."] ∧
    (TriggerGate cfg lib w g).1.g_trigger_in_progress = true ∧
    (TriggerGate cfg lib w g).1.g_last_time_gate_opend_us = g.g_last_time_gate_opend_us ∧
    (TriggerGate cfg lib w g).1.g_led_on = g.g_led_on ∧
    (∀ ts, Effect.generateToken ts ∉ (TriggerGate cfg lib w g).2) ∧
    (∀ url, Effect.httpBegin url ∉ (TriggerGate cfg lib w g).2) ∧
    Effect.httpGET ∉ (TriggerGate cfg lib w g).2 := by
  have e : TriggerGate cfg lib w g = (g, [Effect.enterTriggerGate,
      Effect.serial "TriggerGate already in progress, skipping duplicate call."]) := by
    unfold TriggerGate
    rw [h]
    rfl
  rw [e]
  refine ⟨rfl, rfl, h, rfl, rfl, ?_, ?_, ?_⟩ <;> simp

/-- C6 at a state whose guard is held, with a world that would answer 200. -/
theorem TriggerGate_skips_when_held_witness :
    ({ bootGlobals true with g_trigger_in_progress := true } : Globals).g_trigger_in_progress
      = true ∧
    (TriggerGate sampleConfig sampleLib (worldWithCode 200)
        { bootGlobals true with g_trigger_in_progress := true }).1
      = { bootGlobals true with g_trigger_in_progress := true } ∧
    Effect.httpGET ∉ (TriggerGate sampleConfig sampleLib (worldWithCode 200)
        { bootGlobals true with g_trigger_in_progress := true }).2 :=
  have t := TriggerGate_skips_when_held sampleConfig sampleLib (worldWithCode 200)
    { bootGlobals true with g_trigger_in_progress := true } rfl
  ⟨rfl, t.1, t.2.2.2.2.2.2.2⟩

/-- C8: `TriggerGate` stores the current time into `g_last_time_gate_opend_us` and turns
the LED on exactly when the request was issued and answered with a status in 200..299;
in every other case both globals keep their values and no pin is written; `http.GET()`
is called at most once per call (no retry), and only when the request is issued. -/
theorem TriggerGate_result_only_on_success (cfg : Config) (lib : TokenLib)
    (w : TriggerWorld) (g : Globals) :
    ((requestIssued cfg lib w g ∧ 200 ≤ w.httpCode ∧ w.httpCode < 300) →
      (TriggerGate cfg lib w g).1.g_last_time_gate_opend_us
          = w.now_us % 18446744073709551616 ∧
      (TriggerGate cfg lib w g).1.g_led_on = true ∧
      Effect.digitalWrite LED_PIN true ∈ (TriggerGate cfg lib w g).2) ∧
    (¬ (requestIssued cfg lib w g ∧ 200 ≤ w.httpCode ∧ w.httpCode < 300) →
      (TriggerGate cfg lib w g).1.g_last_time_gate_opend_us = g.g_last_time_gate_opend_us ∧
      (TriggerGate cfg lib w g).1.g_led_on = g.g_led_on ∧
      ∀ pin high, Effect.digitalWrite pin high ∉ (TriggerGate cfg lib w g).2) ∧
    (TriggerGate cfg lib w g).2.count Effect.httpGET ≤ 1 ∧
    (Effect.httpGET ∈ (TriggerGate cfg lib w g).2 ↔ requestIssued cfg lib w g) := by
  unfold TriggerGate triggerBody requestIssued
  cases hg : g.g_trigger_in_progress <;> cases hw : w.wifi_connected <;>
    cases hs : lib.hexStringToBytes cfg.PALGATE_SESSION_TOKEN 16 <;>
    cases hb : w.http_begin_ok <;> simp [List.count_cons]
  by_cases hp : 0 < w.httpCode
  · by_cases hc : 200 ≤ w.httpCode ∧ w.httpCode < 300
    · simp [hp, hc, List.count_cons]
    · simp [hp, hc, List.count_cons]
      intro h1
      omega
  · have hc : ¬ (200 ≤ w.httpCode ∧ w.httpCode < 300) := by omega
    simp [hp, hc, List.count_cons]
    intro h1
    omega

/-- C8 for a call answered with 503 from the boot state: nothing is recorded, the LED
stays off. -/
theorem TriggerGate_result_only_on_success_witness :
    (TriggerGate sampleConfig sampleLib (worldWithCode 503)
        (bootGlobals true)).1.g_last_time_gate_opend_us = 0 ∧
    (TriggerGate sampleConfig sampleLib (worldWithCode 503) (bootGlobals true)).1.g_led_on
      = false ∧
    (TriggerGate sampleConfig sampleLib (worldWithCode 200)
        (bootGlobals true)).1.g_last_time_gate_opend_us = 5000000 ∧
    (TriggerGate sampleConfig sampleLib (worldWithCode 200) (bootGlobals true)).1.g_led_on
      = true :=
  have t503 := (TriggerGate_result_only_on_success sampleConfig sampleLib (worldWithCode 503)
    (bootGlobals true)).2.1 (by decide)
  have t200 := (TriggerGate_result_only_on_success sampleConfig sampleLib (worldWithCode 200)
    (bootGlobals true)).1 (by decide)
  ⟨t503.1, t503.2.1, t200.1, t200.2.1⟩

/-! ## Lemmas on loop -/

theorem debounceBlock_unsynced_effects (cfg : Config) (lib : TokenLib) (now : Nat)
    (w : TriggerWorld) (g : Globals) (h : g.g_is_time_synced_ok = false) :
    ∀ e ∈ (debounceBlock cfg lib now w g).2.2, e.fromTriggerGate = false := by
  intro e he
  unfold debounceBlock at he
  by_cases h1 : g.m_detected = true <;>
    by_cases h2 : subU32 now g.g_last_trigger_ms > DEBOUNCE_MS <;>
    simp [h, h1, h2] at he
  subst he
  rfl

theorem HandleLed_effects (now_us : Nat) (g : Globals) :
    ∀ e ∈ (HandleLed now_us g).2, e.fromTriggerGate = false := by
  intro e he
  unfold HandleLed at he
  by_cases h1 : g.g_last_time_gate_opend_us ≠ 0 ∧
      subU64 now_us g.g_last_time_gate_opend_us < LED_ON_US <;>
    cases h2 : g.g_led_on <;> simp [h1, h2] at he <;> (subst he; rfl)

theorem loopStartScan_effects (w : LoopWorld) (g : Globals) :
    (loopStartScan w g).1.g_is_time_synced_ok = g.g_is_time_synced_ok ∧
    ∀ e ∈ (loopStartScan w g).2, e.fromTriggerGate = false := by
  unfold loopStartScan
  cases g.is_scan_running <;> simp [Effect.fromTriggerGate]

theorem loopProcess_unsynced_effects (cfg : Config) (lib : TokenLib) (w : LoopWorld)
    (g : Globals) (h : g.g_is_time_synced_ok = false) :
    ∀ e ∈ (loopProcess cfg lib w g).2, e.fromTriggerGate = false := by
  intro e he
  have hd := debounceBlock_unsynced_effects cfg lib w.millis_debounce w.trigger
    { g with is_scan_running := false } h e
  have hl := fun (g1 : Globals) => HandleLed_effects w.led_now_us g1 e
  unfold loopProcess at he
  simp only at he
  split at he <;>
    simp only [List.mem_append, List.mem_cons, List.mem_singleton, List.not_mem_nil,
      or_false, false_or] at he
  · rcases he with ((h1 | h1) | h1) | h1
    · rcases h1 with h1 | h1 <;> (subst h1; rfl)
    · exact hd h1
    · exact hl _ h1
    · subst h1; rfl
  · rcases he with (((h1 | h1) | h1) | h1) | h1
    · rcases h1 with h1 | h1 <;> (subst h1; rfl)
    · exact hd h1
    · exact hl _ h1
    · subst h1; rfl
    · subst h1; rfl

theorem loop_unsynced_effects (cfg : Config) (lib : TokenLib) (w : LoopWorld) (g : Globals)
    (h : g.g_is_time_synced_ok = false) :
    ∀ e ∈ (loop cfg lib w g).2, e.fromTriggerGate = false := by
  intro e he
  have hs := loopStartScan_effects w g
  unfold loop at he
  simp only at he
  split at he
  · split at he <;>
      simp only [List.mem_cons, List.mem_singleton, List.not_mem_nil, or_false] at he
    · rcases he with h1 | h1 | h1 <;> (subst h1; rfl)
    · subst he; rfl
  · split at he
    · exact hs.2 e he
    · simp only [List.mem_append] at he
      rcases he with h1 | h1
      · exact hs.2 e h1
      · exact loopProcess_unsynced_effects cfg lib w _ (by simp only [hs.1, h]) e h1

/-! ## C7: no trigger from an unsynchronised clock -/

/-- C7: in a pass of `loop()` that starts with `g_is_time_synced_ok` false, whatever the
latch and the clock readings, `TriggerGate` is not entered, `generateToken` is not
called and no HTTP request is begun or sent. -/
theorem loop_unsynced_never_triggers (cfg : Config) (lib : TokenLib) (w : LoopWorld)
    (g : Globals) (h : g.g_is_time_synced_ok = false) :
    Effect.enterTriggerGate ∉ (loop cfg lib w g).2 ∧
    (∀ ts, Effect.generateToken ts ∉ (loop cfg lib w g).2) ∧
    (∀ url, Effect.httpBegin url ∉ (loop cfg lib w g).2) ∧
    Effect.httpGET ∉ (loop cfg lib w g).2 := by
  have key := loop_unsynced_effects cfg lib w g h
  refine ⟨?_, ?_, ?_, ?_⟩
  · intro c; exact absurd (key _ c) (by decide)
  · intro ts c; exact absurd (key _ c) (by simp [Effect.fromTriggerGate])
  · intro url c; exact absurd (key _ c) (by simp [Effect.fromTriggerGate])
  · intro c; exact absurd (key _ c) (by decide)

/-- C7 at a pass with the latch armed far beyond the debounce window and the clock not
synchronised: the pass runs the debounce block and calls neither `TriggerGate` nor the
network. -/
theorem loop_unsynced_never_triggers_witness :
    armedUnsynced.g_is_time_synced_ok = false ∧
    Effect.scanStop ∈ (loop sampleConfig sampleLib armedPassWorld armedUnsynced).2 ∧
    Effect.enterTriggerGate ∉ (loop sampleConfig sampleLib armedPassWorld armedUnsynced).2 ∧
    Effect.httpGET ∉ (loop sampleConfig sampleLib armedPassWorld armedUnsynced).2 :=
  have t := loop_unsynced_never_triggers sampleConfig sampleLib armedPassWorld armedUnsynced rfl
  ⟨rfl, by decide, t.1, t.2.2.2⟩

/-! ## Lemmas on the detection latch -/

theorem subU32_of_le (a b : Nat) (hab : b ≤ a) (ha : a < 4294967296) :
    subU32 a b = a - b := by
  unfold subU32
  omega

theorem debounceBlock_due (cfg : Config) (lib : TokenLib) (now : Nat) (w : TriggerWorld)
    (g : Globals) :
    ((debounceBlock cfg lib now w g).1 = true ↔
      g.m_detected = true ∧ subU32 now g.g_last_trigger_ms > DEBOUNCE_MS) ∧
    (debounceBlock cfg lib now w g).2.1.m_detected = false ∧
    (debounceBlock cfg lib now w g).2.1.g_last_trigger_ms
      = (if (debounceBlock cfg lib now w g).1 = true then now else g.g_last_trigger_ms) := by
  have hf := fun (g1 : Globals) => TriggerGate_frame cfg lib w g1
  unfold debounceBlock
  by_cases h1 : g.m_detected = true <;>
    by_cases h2 : subU32 now g.g_last_trigger_ms > DEBOUNCE_MS <;>
    cases h3 : g.g_is_time_synced_ok <;>
    simp [h1, h2, h3]
  exact ⟨(hf _).1, (hf _).2.1⟩

theorem onResult_latch (dev : BLEAdvertisedDevice) (now_ms : Nat) (info : BeaconInfo)
    (g : Globals) :
    ∃ g1, onResult dev now_ms info g = some g1 ∧
      g1.g_last_trigger_ms = g.g_last_trigger_ms ∧
      (g.m_detected = true → g1.m_detected = true) ∧
      (dev.haveManufacturerData = true →
        (∃ o, parseIBeacon dev.getManufacturerData info = some (true, o)) →
        subU32 now_ms g.g_last_trigger_ms > DEBOUNCE_MS → g1.m_detected = true) := by
  unfold onResult
  cases hm : dev.haveManufacturerData
  · exact ⟨g, by simp, rfl, id, by simp⟩
  · obtain ⟨⟨ok, o⟩, hp⟩ := parseIBeacon_total dev.getManufacturerData info
    cases ok
    · refine ⟨g, by simp [hp], rfl, id, ?_⟩
      rintro _ ⟨o1, ho1⟩
      rw [hp] at ho1
      simp at ho1
    · by_cases hd : subU32 now_ms g.g_last_trigger_ms > DEBOUNCE_MS
      · refine ⟨{ g with g_lastBeacon := { o with rssi := dev.getRSSI,
                                                   addrStr := dev.getAddress.take 17 },
                         m_detected := true }, ?_, rfl, fun _ => rfl, fun _ _ _ => rfl⟩
        simp only [hp, if_true, if_pos hd]
      · refine ⟨{ g with g_lastBeacon := { o with rssi := dev.getRSSI,
                                                   addrStr := dev.getAddress.take 17 } },
          ?_, rfl, id, fun _ _ c => absurd c hd⟩
        simp only [hp, if_true, if_neg hd]

theorem runSteps_spaced (cfg : Config) (lib : TokenLib) :
    ∀ (steps : List Step) (g : Globals),
      (steps.map Step.time).Pairwise (· ≤ ·) →
      (∀ s ∈ steps, s.time < 4294967296) →
      (∀ s ∈ steps, g.g_last_trigger_ms ≤ s.time) →
      ∃ dues g1, runSteps cfg lib g steps = some (dues, g1) ∧
        (∀ t ∈ dues, g.g_last_trigger_ms + DEBOUNCE_MS < t) ∧
        dues.Pairwise (fun a b => a + DEBOUNCE_MS < b) := by
  intro steps
  induction steps with
  | nil =>
    intro g _ _ _
    exact ⟨[], g, rfl, by simp, List.Pairwise.nil⟩
  | cons s rest ih =>
    intro g hmono hwrap hlast
    rw [List.map_cons, List.pairwise_cons] at hmono
    have hs_wrap := hwrap s (List.mem_cons_self _ _)
    have hs_last := hlast s (List.mem_cons_self _ _)
    have hrest_wrap : ∀ x ∈ rest, x.time < 4294967296 :=
      fun x hx => hwrap x (List.mem_cons_of_mem _ hx)
    have hrest_time : ∀ x ∈ rest, s.time ≤ x.time :=
      fun x hx => hmono.1 x.time (List.mem_map_of_mem _ hx)
    cases s with
    | report dev now_ms info =>
      obtain ⟨g1, hg1, hl1, _, _⟩ := onResult_latch dev now_ms info g
      obtain ⟨dues, g2, hrun, hd1, hd2⟩ := ih g1 hmono.2 hrest_wrap
        (fun x hx => by rw [hl1]; exact hlast x (List.mem_cons_of_mem _ hx))
      refine ⟨dues, g2, ?_, ?_, hd2⟩
      · simp [runSteps, runStep, hg1, hrun]
      · intro t ht
        have := hd1 t ht
        rw [hl1] at this
        exact this
    | takeIfDue now w =>
      obtain ⟨hdue, _, hl1⟩ := debounceBlock_due cfg lib now w g
      have hnow : Step.time (Step.takeIfDue now w) = now := rfl
      rw [hnow] at hs_wrap hs_last hrest_time
      cases hb : (debounceBlock cfg lib now w g).1
      · rw [hb] at hl1
        simp only [Bool.false_eq_true, if_false] at hl1
        obtain ⟨dues, g2, hrun, hd1, hd2⟩ := ih (debounceBlock cfg lib now w g).2.1 hmono.2
          hrest_wrap
          (fun x hx => by rw [hl1]; exact hlast x (List.mem_cons_of_mem _ hx))
        refine ⟨dues, g2, ?_, ?_, hd2⟩
        · simp [runSteps, runStep, hb, hrun]
        · intro t ht
          have := hd1 t ht
          rw [hl1] at this
          exact this
      · rw [hb] at hl1
        simp only [if_true] at hl1
        have hgt := (hdue.mp hb).2
        rw [subU32_of_le now g.g_last_trigger_ms hs_last hs_wrap] at hgt
        obtain ⟨dues, g2, hrun, hd1, hd2⟩ := ih (debounceBlock cfg lib now w g).2.1 hmono.2
          hrest_wrap (fun x hx => by rw [hl1]; exact hrest_time x hx)
        rw [hl1] at hd1
        refine ⟨now :: dues, g2, ?_, ?_, ?_⟩
        · simp [runSteps, runStep, hb, hrun, Step.time]
        · intro t ht
          rcases List.mem_cons.mp ht with h0 | h0
          · subst h0; omega
          · have := hd1 t h0; omega
        · exact List.pairwise_cons.mpr ⟨hd1, hd2⟩

/-- C1: in every run of callbacks and debounce blocks that starts from the boot state
(`g_last_trigger_ms = 0`, `m_detected = false`) with non-decreasing `millis()` readings
below `2 ^ 32`, the run goes through, and any two `takeIfDue` steps that are due, at
readings `t1` (the earlier) and `t2` (the later), satisfy `t1 < t2` and
`t2 - t1 > 10000`, however many callbacks lie between them. -/
theorem debounce_one_due_per_window (cfg : Config) (lib : TokenLib) (g : Globals)
    (steps : List Step)
    (hboot : g.g_last_trigger_ms = 0 ∧ g.m_detected = false)
    (hmono : (steps.map Step.time).Pairwise (· ≤ ·))
    (hwrap : ∀ s ∈ steps, s.time < 4294967296) :
    ∃ dues g1, runSteps cfg lib g steps = some (dues, g1) ∧
      dues.Pairwise (fun t1 t2 => t1 < t2 ∧ t2 - t1 > 10000) := by
  obtain ⟨dues, g1, hrun, _, hp⟩ := runSteps_spaced cfg lib steps g hmono hwrap
    (fun s _ => by rw [hboot.1]; exact Nat.zero_le _)
  refine ⟨dues, g1, hrun, hp.imp ?_⟩
  intro a b hab
  unfold DEBOUNCE_MS at hab
  omega

/-- C1 on a run with three sightings, the second inside the window of the first: the
debounce block is due at 20100 and at 31100 and not at 25100. -/
theorem debounce_one_due_per_window_witness :
    ((bootGlobals true).g_last_trigger_ms = 0 ∧ (bootGlobals true).m_detected = false) ∧
    (∃ dues g1, runSteps sampleConfig sampleLib (bootGlobals true) sampleRun
        = some (dues, g1) ∧
      dues.Pairwise (fun t1 t2 => t1 < t2 ∧ t2 - t1 > 10000)) ∧
    (runSteps sampleConfig sampleLib (bootGlobals true) sampleRun).map Prod.fst
      = some [20100, 31100] :=
  ⟨⟨rfl, rfl⟩,
    debounce_one_due_per_window sampleConfig sampleLib (bootGlobals true) sampleRun
      ⟨rfl, rfl⟩ (by decide) (by decide),
    by decide⟩

/-- C9: the debounce block at reading `now`. With `m_detected` false it is not due and
changes nothing; with `m_detected` true and `now - g_last_trigger_ms > 10000` it clears
`m_detected`, sets `g_last_trigger_ms` to `now` and is due; with `m_detected` true and
`now - g_last_trigger_ms <= 10000` it clears `m_detected`, keeps `g_last_trigger_ms`, is
not due and calls nothing. The difference is the one of `unsigned long`, which is
`now - g_last_trigger_ms` whenever `g_last_trigger_ms <= now < 2 ^ 32`. -/
theorem debounceBlock_takeIfDue (cfg : Config) (lib : TokenLib) (now : Nat)
    (w : TriggerWorld) (g : Globals) :
    (g.m_detected = false →
      (debounceBlock cfg lib now w g).1 = false ∧
      (debounceBlock cfg lib now w g).2.1 = g ∧
      (debounceBlock cfg lib now w g).2.2 = []) ∧
    (g.m_detected = true → subU32 now g.g_last_trigger_ms > 10000 →
      (debounceBlock cfg lib now w g).1 = true ∧
      (debounceBlock cfg lib now w g).2.1.m_detected = false ∧
      (debounceBlock cfg lib now w g).2.1.g_last_trigger_ms = now) ∧
    (g.m_detected = true → subU32 now g.g_last_trigger_ms ≤ 10000 →
      (debounceBlock cfg lib now w g).1 = false ∧
      (debounceBlock cfg lib now w g).2.1.m_detected = false ∧
      (debounceBlock cfg lib now w g).2.1.g_last_trigger_ms = g.g_last_trigger_ms ∧
      (debounceBlock cfg lib now w g).2.2 = []) ∧
    (g.g_last_trigger_ms ≤ now → now < 4294967296 →
      subU32 now g.g_last_trigger_ms = now - g.g_last_trigger_ms) := by
  obtain ⟨hdue, hm, hl⟩ := debounceBlock_due cfg lib now w g
  refine ⟨?_, ?_, ?_, fun h1 h2 => subU32_of_le now g.g_last_trigger_ms h1 h2⟩
  · intro h
    unfold debounceBlock
    simp [h]
  · intro h1 h2
    have hd : (debounceBlock cfg lib now w g).1 = true := hdue.mpr ⟨h1, h2⟩
    rw [hd] at hl
    exact ⟨hd, hm, hl⟩
  · intro h1 h2
    have hd : (debounceBlock cfg lib now w g).1 = false := by
      cases hb : (debounceBlock cfg lib now w g).1
      · rfl
      · have := (hdue.mp hb).2
        unfold DEBOUNCE_MS at this
        omega
    rw [hd] at hl
    refine ⟨hd, hm, hl, ?_⟩
    have h3 : ¬ subU32 now g.g_last_trigger_ms > DEBOUNCE_MS := by
      unfold DEBOUNCE_MS; omega
    unfold debounceBlock
    simp [h1, h3]

/-- C9 at an armed latch whose last trigger was at 20100: a block at 25100 absorbs the
arm, a block at 31100 is due. -/
theorem debounceBlock_takeIfDue_witness :
    ((debounceBlock sampleConfig sampleLib 25100 (worldWithCode 200)
        { bootGlobals true with m_detected := true, g_last_trigger_ms := 20100 }).1 = false ∧
      (debounceBlock sampleConfig sampleLib 25100 (worldWithCode 200)
        { bootGlobals true with m_detected := true, g_last_trigger_ms := 20100 }).2.1.m_detected
        = false ∧
      (debounceBlock sampleConfig sampleLib 25100 (worldWithCode 200)
        { bootGlobals true with m_detected := true,
                                g_last_trigger_ms := 20100 }).2.1.g_last_trigger_ms = 20100 ∧
      (debounceBlock sampleConfig sampleLib 25100 (worldWithCode 200)
        { bootGlobals true with m_detected := true, g_last_trigger_ms := 20100 }).2.2 = []) ∧
    ((debounceBlock sampleConfig sampleLib 31100 (worldWithCode 200)
        { bootGlobals true with m_detected := true, g_last_trigger_ms := 20100 }).1 = true ∧
      (debounceBlock sampleConfig sampleLib 31100 (worldWithCode 200)
        { bootGlobals true with m_detected := true, g_last_trigger_ms := 20100 }).2.1.m_detected
        = false ∧
      (debounceBlock sampleConfig sampleLib 31100 (worldWithCode 200)
        { bootGlobals true with m_detected := true,
                                g_last_trigger_ms := 20100 }).2.1.g_last_trigger_ms = 31100) :=
  ⟨(debounceBlock_takeIfDue sampleConfig sampleLib 25100 (worldWithCode 200)
      { bootGlobals true with m_detected := true, g_last_trigger_ms := 20100 }).2.2.1
      rfl (by decide),
   (debounceBlock_takeIfDue sampleConfig sampleLib 31100 (worldWithCode 200)
      { bootGlobals true with m_detected := true, g_last_trigger_ms := 20100 }).2.1
      rfl (by decide)⟩

/-- C12: `onResult` always returns; it never changes `g_last_trigger_ms` and never clears
`m_detected`, and it touches no global but `g_lastBeacon` and `m_detected`. For an
advertisement with manufacturer data it sets `m_detected` exactly when `parseIBeacon`
accepts the payload and `now - g_last_trigger_ms > 10000` (the difference of
`unsigned long`, the plain one whenever `g_last_trigger_ms <= now < 2 ^ 32`), and keeps
`m_detected` otherwise; for a rejected payload, and without manufacturer data, it
changes nothing at all. -/
theorem onResult_report (dev : BLEAdvertisedDevice) (now_ms : Nat) (info : BeaconInfo)
    (g : Globals) :
    ∃ g1, onResult dev now_ms info g = some g1 ∧
      g1.g_last_trigger_ms = g.g_last_trigger_ms ∧
      (g.m_detected = true → g1.m_detected = true) ∧
      g1 = { g with g_lastBeacon := g1.g_lastBeacon, m_detected := g1.m_detected } ∧
      (dev.haveManufacturerData = true →
        (((∃ o, parseIBeacon dev.getManufacturerData info = some (true, o)) ∧
            subU32 now_ms g.g_last_trigger_ms > 10000) → g1.m_detected = true) ∧
        (¬ ((∃ o, parseIBeacon dev.getManufacturerData info = some (true, o)) ∧
            subU32 now_ms g.g_last_trigger_ms > 10000) → g1.m_detected = g.m_detected) ∧
        ((∃ o, parseIBeacon dev.getManufacturerData info = some (false, o)) → g1 = g)) ∧
      (dev.haveManufacturerData = false → g1 = g) ∧
      (g.g_last_trigger_ms ≤ now_ms → now_ms < 4294967296 →
        subU32 now_ms g.g_last_trigger_ms = now_ms - g.g_last_trigger_ms) := by
  have hsub : g.g_last_trigger_ms ≤ now_ms → now_ms < 4294967296 →
      subU32 now_ms g.g_last_trigger_ms = now_ms - g.g_last_trigger_ms :=
    fun h1 h2 => subU32_of_le now_ms g.g_last_trigger_ms h1 h2
  unfold onResult
  cases hm : dev.haveManufacturerData
  · exact ⟨g, by simp, rfl, id, rfl, by simp, fun _ => rfl, hsub⟩
  · obtain ⟨⟨ok, o⟩, hp⟩ := parseIBeacon_total dev.getManufacturerData info
    cases ok
    · refine ⟨g, by simp [hp], rfl, id, rfl, fun _ => ⟨?_, fun _ => rfl, fun _ => rfl⟩,
        by simp, hsub⟩
      rintro ⟨⟨o1, ho1⟩, _⟩
      rw [hp] at ho1
      simp at ho1
    · by_cases hd : subU32 now_ms g.g_last_trigger_ms > DEBOUNCE_MS
      · refine ⟨{ g with g_lastBeacon := { o with rssi := dev.getRSSI,
                                                   addrStr := dev.getAddress.take 17 },
                         m_detected := true }, ?_, rfl, fun _ => rfl, rfl,
          fun _ => ⟨fun _ => rfl, ?_, ?_⟩, by simp, hsub⟩
        · simp only [hp, if_true, if_pos hd]
        · intro hn
          exact absurd ⟨⟨o, hp⟩, hd⟩ hn
        · rintro ⟨o1, ho1⟩
          rw [hp] at ho1
          simp at ho1
      · refine ⟨{ g with g_lastBeacon := { o with rssi := dev.getRSSI,
                                                   addrStr := dev.getAddress.take 17 } },
          ?_, rfl, id, rfl, fun _ => ⟨?_, fun _ => rfl, ?_⟩, by simp, hsub⟩
        · simp only [hp, if_true, if_neg hd]
        · rintro ⟨_, h2⟩
          exact absurd h2 hd
        · rintro ⟨o1, ho1⟩
          rw [hp] at ho1
          simp at ho1

/-- C12 at the boot state: the beacon at 20000 arms the latch, the beacon at 3000 and a
foreign advertisement at 20000 do not, and the foreign one changes nothing. -/
theorem onResult_report_witness :
    (onResult beaconDevice 20000 emptyInfo (bootGlobals true)).map (fun g => g.m_detected)
      = some true ∧
    (onResult beaconDevice 3000 emptyInfo (bootGlobals true)).map (fun g => g.m_detected)
      = some false ∧
    onResult otherDevice 20000 emptyInfo (bootGlobals true) = some (bootGlobals true) ∧
    ∃ g1, onResult beaconDevice 20000 emptyInfo (bootGlobals true) = some g1 ∧
      g1.g_last_trigger_ms = (bootGlobals true).g_last_trigger_ms :=
  ⟨by decide, by decide, by decide,
    (onResult_report beaconDevice 20000 emptyInfo (bootGlobals true)).imp
      (fun _ h => ⟨h.1, h.2.1⟩)⟩

/-! ## C14: the restartable timer -/

/-- C14: `wait(d)` at reading `now`. On an inactive timer it arms the timer (`active`
true, `start_time = now`) and returns false, for every `d`. On an active timer it
returns true exactly when `now - start_time >= d` (the difference of `unsigned long`,
the plain one whenever `start_time <= now < 2 ^ 32`); then the timer is inactive with
`start_time` kept, otherwise the timer is unchanged. The call after a true result arms
the timer again and returns false. -/
theorem DelayNonBlocking_wait_restartable (t : DelayNonBlocking) (d now : Nat) :
    (t.active = false →
      t.wait d now = (false, { start_time := now, active := true })) ∧
    (t.active = true →
      ((t.wait d now).1 = true ↔ subU32 now t.start_time ≥ d) ∧
      ((t.wait d now).1 = true →
        (t.wait d now).2 = { start_time := t.start_time, active := false }) ∧
      ((t.wait d now).1 = false → (t.wait d now).2 = t)) ∧
    (∀ d2 now2, (t.wait d now).1 = true →
      (t.wait d now).2.wait d2 now2 = (false, { start_time := now2, active := true })) ∧
    (t.start_time ≤ now → now < 4294967296 → subU32 now t.start_time = now - t.start_time) := by
  have key : ∀ (u : DelayNonBlocking) (e n : Nat), u.active = false →
      u.wait e n = (false, { start_time := n, active := true }) := by
    intro u e n hu
    unfold DelayNonBlocking.wait
    simp [hu]
  have hact : (t.wait d now).1 = true → (t.wait d now).2.active = false := by
    unfold DelayNonBlocking.wait
    cases ha : t.active <;> by_cases hd : subU32 now t.start_time < d <;> simp [ha, hd]
  refine ⟨key t d now, ?_, fun d2 now2 h => key _ d2 now2 (hact h),
    fun h1 h2 => subU32_of_le now t.start_time h1 h2⟩
  intro ha
  unfold DelayNonBlocking.wait
  by_cases hd : subU32 now t.start_time < d
  · simp [ha, hd]
  · simp [ha, hd]
    omega

/-- C14 on a timer armed at 1000 and asked for 80 ms: not yet at 1079, elapsed at 1080,
and armed anew by the next call. -/
theorem DelayNonBlocking_wait_restartable_witness :
    (({ start_time := 1000, active := true } : DelayNonBlocking).wait 80 1079).1 = false ∧
    (({ start_time := 1000, active := true } : DelayNonBlocking).wait 80 1080)
      = (true, { start_time := 1000, active := false }) ∧
    ((({ start_time := 1000, active := true } : DelayNonBlocking).wait 80 1080).2.wait 0 1081)
      = (false, { start_time := 1081, active := true }) :=
  ⟨by decide, by decide,
    (DelayNonBlocking_wait_restartable { start_time := 1000, active := true } 80 1080).2.2.1
      0 1081 (by decide)⟩

/-! ## C15: the status indicator -/

theorem HandleLed_eq (now_us : Nat) (g : Globals) :
    HandleLed now_us g =
      ({ g with g_led_on := decide (g.g_last_time_gate_opend_us ≠ 0 ∧
            subU64 now_us g.g_last_time_gate_opend_us < 3000000) },
       if g.g_led_on = decide (g.g_last_time_gate_opend_us ≠ 0 ∧
            subU64 now_us g.g_last_time_gate_opend_us < 3000000) then []
       else [Effect.digitalWrite LED_PIN (decide (g.g_last_time_gate_opend_us ≠ 0 ∧
            subU64 now_us g.g_last_time_gate_opend_us < 3000000))]) := by
  have hL : LED_ON_US = 3000000 := rfl
  unfold HandleLed
  rw [hL]
  cases g with
  | mk led synced beacon last det prog opened sd ld run =>
    by_cases hc : opened ≠ 0 ∧ subU64 now_us opened < 3000000 <;>
      cases led <;> simp [hc]

/-- C15: after `HandleLed()` at reading `now_us`, `g_led_on` is true exactly when
`g_last_time_gate_opend_us` is not 0 and `now_us - g_last_time_gate_opend_us < 3000000`
(the difference of `uint64_t`, the plain one whenever
`g_last_time_gate_opend_us <= now_us < 2 ^ 64`); no other global changes; a second
call at the same reading changes nothing and writes no pin. -/
theorem HandleLed_indicator (now_us : Nat) (g : Globals) :
    ((HandleLed now_us g).1.g_led_on = true ↔
      g.g_last_time_gate_opend_us ≠ 0 ∧
        subU64 now_us g.g_last_time_gate_opend_us < 3000000) ∧
    (HandleLed now_us g).1 = { g with g_led_on := (HandleLed now_us g).1.g_led_on } ∧
    HandleLed now_us (HandleLed now_us g).1 = ((HandleLed now_us g).1, []) ∧
    (g.g_last_time_gate_opend_us ≤ now_us → now_us < 18446744073709551616 →
      subU64 now_us g.g_last_time_gate_opend_us = now_us - g.g_last_time_gate_opend_us) := by
  refine ⟨?_, ?_, ?_, ?_⟩
  · rw [HandleLed_eq]
    simp
  · rw [HandleLed_eq]
  · rw [HandleLed_eq now_us g, HandleLed_eq]
    simp
  · intro h1 h2
    unfold subU64
    omega

/-- C15 three seconds around a success recorded at 5000000: on at 7999999, off at
8000000, and off while nothing has been recorded. -/
theorem HandleLed_indicator_witness :
    (HandleLed 7999999 { bootGlobals true with g_last_time_gate_opend_us := 5000000 }).1.g_led_on
      = true ∧
    (HandleLed 8000000 { bootGlobals true with g_last_time_gate_opend_us := 5000000,
                                               g_led_on := true }).1.g_led_on = false ∧
    (HandleLed 7999999 (bootGlobals true)).1.g_led_on = false ∧
    HandleLed 7999999
        (HandleLed 7999999
          { bootGlobals true with g_last_time_gate_opend_us := 5000000 }).1
      = ((HandleLed 7999999
          { bootGlobals true with g_last_time_gate_opend_us := 5000000 }).1, []) :=
  ⟨by decide, by decide, by decide,
    (HandleLed_indicator 7999999
      { bootGlobals true with g_last_time_gate_opend_us := 5000000 }).2.2.1⟩

/-! ## Lemmas on traces -/

theorem onResult_outside_window (dev : BLEAdvertisedDevice) (now_ms : Nat) (info : BeaconInfo)
    (g : Globals) (h : subU32 now_ms g.g_last_trigger_ms ≤ DEBOUNCE_MS) :
    ∃ g1, onResult dev now_ms info g = some g1 ∧
      g1.g_last_trigger_ms = g.g_last_trigger_ms ∧ g1.m_detected = g.m_detected := by
  have hd : ¬ subU32 now_ms g.g_last_trigger_ms > DEBOUNCE_MS := by omega
  unfold onResult
  cases hm : dev.haveManufacturerData
  · exact ⟨g, by simp, rfl, rfl⟩
  · obtain ⟨⟨ok, o⟩, hp⟩ := parseIBeacon_total dev.getManufacturerData info
    cases ok
    · exact ⟨g, by simp [hp], rfl, rfl⟩
    · refine ⟨{ g with g_lastBeacon := { o with rssi := dev.getRSSI,
                                                 addrStr := dev.getAddress.take 17 } },
        ?_, rfl, rfl⟩
      simp only [hp, if_true, if_neg hd]

theorem runTrace_quiet (cfg : Config) (lib : TokenLib) :
    ∀ (steps : List Step) (g : Globals) (tr : List StepRecord),
      g.m_detected = false →
      runTrace cfg lib g steps = some tr →
      (∀ r ∈ tr, r.arms = false) →
      ∀ r ∈ tr, r.due = false ∧ r.effects = [] := by
  intro steps
  induction steps with
  | nil =>
    intro g tr _ hrun _ r hr
    simp only [runTrace, Option.some.injEq] at hrun
    subst hrun
    cases hr
  | cons s rest ih =>
    intro g tr hm hrun hquiet r hr
    cases s with
    | report dev now_ms info =>
      obtain ⟨g1, hg1, _, _, _⟩ := onResult_latch dev now_ms info g
      simp only [runTrace, hg1, Option.map_eq_some'] at hrun
      obtain ⟨tl, htl, hcons⟩ := hrun
      subst hcons
      have harm := hquiet _ (List.mem_cons_self _ _)
      have hm1 : g1.m_detected = false := by
        simpa [StepRecord.arms, Step.isReport] using harm
      rcases List.mem_cons.mp hr with h0 | h0
      · subst h0
        exact ⟨rfl, rfl⟩
      · exact ih g1 tl hm1 htl (fun x hx => hquiet x (List.mem_cons_of_mem _ hx)) r h0
    | takeIfDue now w =>
      obtain ⟨hdue, hm1, _⟩ := debounceBlock_due cfg lib now w g
      have hnd : (debounceBlock cfg lib now w g).1 = false := by
        cases hb : (debounceBlock cfg lib now w g).1
        · rfl
        · have := (hdue.mp hb).1
          rw [hm] at this
          cases this
      have heff : (debounceBlock cfg lib now w g).2.2 = [] := by
        unfold debounceBlock
        simp [hm]
      simp only [runTrace, Option.map_eq_some'] at hrun
      obtain ⟨tl, htl, hcons⟩ := hrun
      subst hcons
      rcases List.mem_cons.mp hr with h0 | h0
      · subst h0
        exact ⟨hnd, heff⟩
      · exact ih _ tl hm1 htl (fun x hx => hquiet x (List.mem_cons_of_mem _ hx)) r h0

theorem runTrace_advances (cfg : Config) (lib : TokenLib) :
    ∀ (steps : List Step) (g : Globals),
      (steps.map Step.time).Pairwise (· ≤ ·) →
      (∀ s ∈ steps, s.time < 4294967296) →
      (∀ s ∈ steps, g.g_last_trigger_ms ≤ s.time) →
      ∃ tr, runTrace cfg lib g steps = some tr ∧ tr.map (fun r => r.step) = steps ∧
        ∀ r ∈ tr, r.after.g_last_trigger_ms = r.before.g_last_trigger_ms ∨
          (r.after.g_last_trigger_ms = r.step.time ∧
            r.before.g_last_trigger_ms < r.step.time) := by
  intro steps
  induction steps with
  | nil =>
    intro g _ _ _
    exact ⟨[], rfl, rfl, by simp⟩
  | cons s rest ih =>
    intro g hmono hwrap hlast
    rw [List.map_cons, List.pairwise_cons] at hmono
    have hs_wrap := hwrap s (List.mem_cons_self _ _)
    have hs_last := hlast s (List.mem_cons_self _ _)
    have hrest_wrap : ∀ x ∈ rest, x.time < 4294967296 :=
      fun x hx => hwrap x (List.mem_cons_of_mem _ hx)
    have hrest_time : ∀ x ∈ rest, s.time ≤ x.time :=
      fun x hx => hmono.1 x.time (List.mem_map_of_mem _ hx)
    cases s with
    | report dev now_ms info =>
      obtain ⟨g1, hg1, hl1, _, _⟩ := onResult_latch dev now_ms info g
      obtain ⟨tl, htl, hsteps, hall⟩ := ih g1 hmono.2 hrest_wrap
        (fun x hx => by rw [hl1]; exact hlast x (List.mem_cons_of_mem _ hx))
      refine ⟨{ before := g, step := Step.report dev now_ms info, due := false,
                effects := [], after := g1 } :: tl,
        by simp only [runTrace, hg1, htl, Option.map_some'], ?_, ?_⟩
      · simp only [List.map_cons, hsteps]
      · intro r hr
        rcases List.mem_cons.mp hr with h0 | h0
        · subst h0
          exact Or.inl hl1
        · exact hall r h0
    | takeIfDue now w =>
      obtain ⟨hdue, _, hl1⟩ := debounceBlock_due cfg lib now w g
      have hnow : Step.time (Step.takeIfDue now w) = now := rfl
      rw [hnow] at hs_wrap hs_last hrest_time
      have hstep : (debounceBlock cfg lib now w g).2.1.g_last_trigger_ms = g.g_last_trigger_ms ∨
          ((debounceBlock cfg lib now w g).2.1.g_last_trigger_ms = now ∧
            g.g_last_trigger_ms < now) := by
        cases hb : (debounceBlock cfg lib now w g).1
        · rw [hb] at hl1
          exact Or.inl (by simpa using hl1)
        · rw [hb] at hl1
          have hgt := (hdue.mp hb).2
          rw [subU32_of_le now g.g_last_trigger_ms hs_last hs_wrap] at hgt
          unfold DEBOUNCE_MS at hgt
          exact Or.inr ⟨by simpa using hl1, by omega⟩
      have hnext : ∀ x ∈ rest,
          (debounceBlock cfg lib now w g).2.1.g_last_trigger_ms ≤ x.time := by
        intro x hx
        rcases hstep with h0 | h0
        · rw [h0]; exact hlast x (List.mem_cons_of_mem _ hx)
        · rw [h0.1]; exact hrest_time x hx
      obtain ⟨tl, htl, hsteps, hall⟩ := ih _ hmono.2 hrest_wrap hnext
      refine ⟨{ before := g, step := Step.takeIfDue now w,
                due := (debounceBlock cfg lib now w g).1,
                effects := (debounceBlock cfg lib now w g).2.2,
                after := (debounceBlock cfg lib now w g).2.1 } :: tl,
        by simp only [runTrace, htl, Option.map_some'], ?_, ?_⟩
      · simp only [List.map_cons, hsteps]
      · intro r hr
        rcases List.mem_cons.mp hr with h0 | h0
        · subst h0
          exact hstep
        · exact hall r h0

theorem runTrace_blind (cfg : Config) (lib : TokenLib) :
    ∀ (steps : List Step) (g : Globals),
      g.g_last_trigger_ms = 0 → g.m_detected = false →
      (∀ d n i, Step.report d n i ∈ steps → n ≤ 10000) →
      ∃ tr, runTrace cfg lib g steps = some tr ∧ tr.map (fun r => r.step) = steps ∧
        ∀ r ∈ tr, r.due = false ∧ r.effects = [] ∧ r.after.m_detected = false ∧
          r.after.g_last_trigger_ms = 0 := by
  intro steps
  induction steps with
  | nil =>
    intro g _ _ _
    exact ⟨[], rfl, rfl, by simp⟩
  | cons s rest ih =>
    intro g hl hm hearly
    have hrest : ∀ d n i, Step.report d n i ∈ rest → n ≤ 10000 :=
      fun d n i h => hearly d n i (List.mem_cons_of_mem _ h)
    cases s with
    | report dev now_ms info =>
      have hn := hearly dev now_ms info (List.mem_cons_self _ _)
      have hwin : subU32 now_ms g.g_last_trigger_ms ≤ DEBOUNCE_MS := by
        rw [hl]
        unfold subU32 DEBOUNCE_MS
        omega
      obtain ⟨g1, hg1, hl1, hm1⟩ := onResult_outside_window dev now_ms info g hwin
      rw [hl] at hl1
      rw [hm] at hm1
      obtain ⟨tl, htl, hsteps, hall⟩ := ih g1 hl1 hm1 hrest
      refine ⟨{ before := g, step := Step.report dev now_ms info, due := false,
                effects := [], after := g1 } :: tl,
        by simp only [runTrace, hg1, htl, Option.map_some'], ?_, ?_⟩
      · simp only [List.map_cons, hsteps]
      · intro r hr
        rcases List.mem_cons.mp hr with h0 | h0
        · subst h0
          exact ⟨rfl, rfl, hm1, hl1⟩
        · exact hall r h0
    | takeIfDue now w =>
      have hdb : debounceBlock cfg lib now w g = (false, g, []) := by
        unfold debounceBlock
        simp [hm]
      obtain ⟨tl, htl, hsteps, hall⟩ := ih g hl hm hrest
      refine ⟨{ before := g, step := Step.takeIfDue now w, due := false, effects := [],
                after := g } :: tl,
        by simp only [runTrace, hdb, htl, Option.map_some'], ?_, ?_⟩
      · simp only [List.map_cons, hsteps]
      · intro r hr
        rcases List.mem_cons.mp hr with h0 | h0
        · subst h0
          exact ⟨rfl, rfl, hm, hl⟩
        · exact hall r h0

theorem runTrace_total (cfg : Config) (lib : TokenLib) :
    ∀ (steps : List Step) (g : Globals),
      ∃ tr, runTrace cfg lib g steps = some tr ∧ tr.map (fun r => r.step) = steps := by
  intro steps
  induction steps with
  | nil => intro g; exact ⟨[], rfl, rfl⟩
  | cons s rest ih =>
    intro g
    cases s with
    | report dev now_ms info =>
      obtain ⟨g1, hg1, _⟩ := onResult_latch dev now_ms info g
      obtain ⟨tl, htl, hsteps⟩ := ih g1
      exact ⟨{ before := g, step := Step.report dev now_ms info, due := false,
               effects := [], after := g1 } :: tl,
        by simp only [runTrace, hg1, htl, Option.map_some'],
        by simp only [List.map_cons, hsteps]⟩
    | takeIfDue now w =>
      obtain ⟨tl, htl, hsteps⟩ := ih (debounceBlock cfg lib now w g).2.1
      exact ⟨{ before := g, step := Step.takeIfDue now w,
               due := (debounceBlock cfg lib now w g).1,
               effects := (debounceBlock cfg lib now w g).2.2,
               after := (debounceBlock cfg lib now w g).2.1 } :: tl,
        by simp only [runTrace, htl, Option.map_some'],
        by simp only [List.map_cons, hsteps]⟩

theorem runTrace_dues (cfg : Config) (lib : TokenLib) :
    ∀ (steps : List Step) (g : Globals),
      (runTrace cfg lib g steps).map
          (fun tr => (tr.filter (fun r => r.due)).map (fun r => r.step.time))
        = (runSteps cfg lib g steps).map Prod.fst := by
  intro steps
  induction steps with
  | nil => intro g; rfl
  | cons s rest ih =>
    intro g
    cases s with
    | report dev now_ms info =>
      obtain ⟨g1, hg1, _⟩ := onResult_latch dev now_ms info g
      have h := ih g1
      obtain ⟨tr, htr, _⟩ := runTrace_total cfg lib rest g1
      rw [htr] at h
      simp only [runTrace, runSteps, runStep, hg1, htr, Option.map_some']
      cases hrs : runSteps cfg lib g1 rest with
      | none => rw [hrs] at h; simp at h
      | some r =>
        rw [hrs] at h
        simp only [Option.map_some', Option.some.injEq] at h
        simp [h]
    | takeIfDue now w =>
      have h := ih (debounceBlock cfg lib now w g).2.1
      obtain ⟨tr, htr, _⟩ := runTrace_total cfg lib rest (debounceBlock cfg lib now w g).2.1
      rw [htr] at h
      simp only [runTrace, runSteps, runStep, htr, Option.map_some']
      cases hrs : runSteps cfg lib (debounceBlock cfg lib now w g).2.1 rest with
      | none => rw [hrs] at h; simp at h
      | some r =>
        rw [hrs] at h
        simp only [Option.map_some', Option.some.injEq] at h
        cases hb : (debounceBlock cfg lib now w g).1
        · simpa using h
        · simp only [List.filter_cons_of_pos, List.map_cons, if_true, h]
          rfl

/-! ## C11, C13, C17: runs of the latch -/

/-- C11: when a debounce block is due (it then leaves `m_detected` cleared and
`g_last_trigger_ms` at its reading), then in every continuation of the run in which no
callback arms the latch, every step is not due and makes no library call, so
`TriggerGate` is not entered, whatever the readings of the later steps are. -/
theorem one_sighting_one_trigger (cfg : Config) (lib : TokenLib) (g : Globals) (t0 : Nat)
    (w0 : TriggerWorld) (later : List Step) (tr : List StepRecord)
    (hdue : (debounceBlock cfg lib t0 w0 g).1 = true)
    (hrun : runTrace cfg lib (debounceBlock cfg lib t0 w0 g).2.1 later = some tr)
    (hquiet : ∀ r ∈ tr, r.arms = false) :
    (debounceBlock cfg lib t0 w0 g).2.1.m_detected = false ∧
    (debounceBlock cfg lib t0 w0 g).2.1.g_last_trigger_ms = t0 ∧
    ∀ r ∈ tr, r.due = false ∧ Effect.enterTriggerGate ∉ r.effects := by
  obtain ⟨_, hm, hl⟩ := debounceBlock_due cfg lib t0 w0 g
  rw [hdue] at hl
  refine ⟨hm, by simpa using hl, ?_⟩
  intro r hr
  obtain ⟨h1, h2⟩ := runTrace_quiet cfg lib later _ tr hm hrun hquiet r hr
  exact ⟨h1, by rw [h2]; exact List.not_mem_nil _⟩

/-- C11 after the due block at 20100: a foreign advertisement, a sighting at 25000 and
blocks at 50000 and 90000 follow, and no block is due. -/
theorem one_sighting_one_trigger_witness :
    (debounceBlock sampleConfig sampleLib 20100 (worldWithCode 200) armedBoot).1 = true ∧
    ((runTrace sampleConfig sampleLib
        (debounceBlock sampleConfig sampleLib 20100 (worldWithCode 200) armedBoot).2.1
        laterSteps).getD []).length = 4 ∧
    ∀ r ∈ (runTrace sampleConfig sampleLib
        (debounceBlock sampleConfig sampleLib 20100 (worldWithCode 200) armedBoot).2.1
        laterSteps).getD [],
      r.due = false ∧ Effect.enterTriggerGate ∉ r.effects :=
  ⟨by decide, by decide,
    (one_sighting_one_trigger sampleConfig sampleLib armedBoot 20100 (worldWithCode 200)
      laterSteps
      ((runTrace sampleConfig sampleLib
        (debounceBlock sampleConfig sampleLib 20100 (worldWithCode 200) armedBoot).2.1
        laterSteps).getD [])
      (by decide) (by rfl) (by decide)).2.2⟩

/-- C13: in every run of callbacks and debounce blocks from the boot state
(`g_last_trigger_ms = 0`) with non-decreasing readings below `2 ^ 32`, every step goes
through and either leaves `g_last_trigger_ms` unchanged or sets it to its own reading,
which is then strictly greater than the old value. -/
theorem last_trigger_only_advances (cfg : Config) (lib : TokenLib) (g : Globals)
    (steps : List Step)
    (hboot : g.g_last_trigger_ms = 0)
    (hmono : (steps.map Step.time).Pairwise (· ≤ ·))
    (hwrap : ∀ s ∈ steps, s.time < 4294967296) :
    ∃ tr, runTrace cfg lib g steps = some tr ∧ tr.map (fun r => r.step) = steps ∧
      ∀ r ∈ tr, r.after.g_last_trigger_ms = r.before.g_last_trigger_ms ∨
        (r.after.g_last_trigger_ms = r.step.time ∧
          r.before.g_last_trigger_ms < r.step.time) :=
  runTrace_advances cfg lib steps g hmono hwrap
    (fun s _ => by rw [hboot]; exact Nat.zero_le _)

/-- C13 on the run with three sightings: `g_last_trigger_ms` goes 0, 20100, 31100. -/
theorem last_trigger_only_advances_witness :
    (∃ tr, runTrace sampleConfig sampleLib (bootGlobals true) sampleRun = some tr ∧
      tr.map (fun r => r.step) = sampleRun ∧
      ∀ r ∈ tr, r.after.g_last_trigger_ms = r.before.g_last_trigger_ms ∨
        (r.after.g_last_trigger_ms = r.step.time ∧
          r.before.g_last_trigger_ms < r.step.time)) ∧
    (runTrace sampleConfig sampleLib (bootGlobals true) sampleRun).map
        (fun tr => tr.map (fun r => r.after.g_last_trigger_ms))
      = some [0, 20100, 20100, 20100, 20100, 31100] :=
  ⟨last_trigger_only_advances sampleConfig sampleLib (bootGlobals true) sampleRun rfl
    (by decide) (by decide), by decide⟩

/-- C17: from the boot state (`g_last_trigger_ms = 0`, `m_detected = false`), in every
run whose callbacks all come at readings of at most 10000, no callback arms the latch,
no debounce block is due, whatever its reading, and no step makes a library call, so
`TriggerGate` is never entered. -/
theorem boot_window_is_blind (cfg : Config) (lib : TokenLib) (g : Globals)
    (steps : List Step)
    (hboot : g.g_last_trigger_ms = 0 ∧ g.m_detected = false)
    (hearly : ∀ d n i, Step.report d n i ∈ steps → n ≤ 10000) :
    ∃ tr, runTrace cfg lib g steps = some tr ∧ tr.map (fun r => r.step) = steps ∧
      ∀ r ∈ tr, r.due = false ∧ r.after.m_detected = false ∧
        r.after.g_last_trigger_ms = 0 ∧ Effect.enterTriggerGate ∉ r.effects := by
  obtain ⟨tr, hrun, hsteps, hall⟩ := runTrace_blind cfg lib steps g hboot.1 hboot.2 hearly
  refine ⟨tr, hrun, hsteps, ?_⟩
  intro r hr
  obtain ⟨h1, h2, h3, h4⟩ := hall r hr
  exact ⟨h1, h3, h4, by rw [h2]; exact List.not_mem_nil _⟩

/-- C17 on a run with matching sightings at 3000 and 10000 and debounce blocks up to
60000: nothing is due. -/
theorem boot_window_is_blind_witness :
    ((bootGlobals true).g_last_trigger_ms = 0 ∧ (bootGlobals true).m_detected = false) ∧
    (∃ o, parseIBeacon beaconDevice.getManufacturerData emptyInfo = some (true, o)) ∧
    ∃ tr, runTrace sampleConfig sampleLib (bootGlobals true) bootWindowRun = some tr ∧
      tr.map (fun r => r.step) = bootWindowRun ∧
      ∀ r ∈ tr, r.due = false ∧ r.after.m_detected = false ∧
        r.after.g_last_trigger_ms = 0 ∧ Effect.enterTriggerGate ∉ r.effects :=
  ⟨⟨rfl, rfl⟩, ⟨decoded beaconPayload emptyInfo, by decide⟩,
    boot_window_is_blind sampleConfig sampleLib (bootGlobals true) bootWindowRun ⟨rfl, rfl⟩
      (by
        intro d n i h
        simp only [bootWindowRun, List.mem_cons, Step.report.injEq, List.mem_singleton,
          List.not_mem_nil, or_false, false_or, reduceCtorEq] at h
        rcases h with ⟨_, hn, _⟩ | ⟨_, hn, _⟩ <;> omega)⟩

/-! ## Lemmas on the scheduler -/

theorem triggerBody_scheduler_effects (cfg : Config) (lib : TokenLib) (w : TriggerWorld)
    (g : Globals) :
    (triggerBody cfg lib w g).2.all (fun e => !e.fromScheduler) = true := by
  unfold triggerBody
  cases w.wifi_connected <;> cases lib.hexStringToBytes cfg.PALGATE_SESSION_TOKEN 16 <;>
    cases w.http_begin_ok <;> simp [Effect.fromScheduler]
  split_ifs <;> simp [Effect.fromScheduler]

theorem TriggerGate_scheduler_effects (cfg : Config) (lib : TokenLib) (w : TriggerWorld)
    (g : Globals) :
    (TriggerGate cfg lib w g).2.all (fun e => !e.fromScheduler) = true := by
  have hb := triggerBody_scheduler_effects cfg lib w { g with g_trigger_in_progress := true }
  unfold TriggerGate
  cases g.g_trigger_in_progress
  · simpa [Effect.fromScheduler] using hb
  · simp [Effect.fromScheduler]

theorem debounceBlock_scheduler (cfg : Config) (lib : TokenLib) (now : Nat)
    (w : TriggerWorld) (g : Globals) :
    (debounceBlock cfg lib now w g).2.2.all (fun e => !e.fromScheduler) = true ∧
    (debounceBlock cfg lib now w g).2.1.g_scan_delay = g.g_scan_delay ∧
    (debounceBlock cfg lib now w g).2.1.g_loop_delay = g.g_loop_delay ∧
    (debounceBlock cfg lib now w g).2.1.is_scan_running = g.is_scan_running := by
  have he := fun (g1 : Globals) => TriggerGate_scheduler_effects cfg lib w g1
  have hf := fun (g1 : Globals) => TriggerGate_frame cfg lib w g1
  unfold debounceBlock
  by_cases h1 : g.m_detected = true <;>
    by_cases h2 : subU32 now g.g_last_trigger_ms > DEBOUNCE_MS <;>
    cases h3 : g.g_is_time_synced_ok <;>
    simp [h1, h2, h3, Effect.fromScheduler]
  exact ⟨by simpa using he _, (hf _).2.2.2.2.1, (hf _).2.2.2.2.2.1, (hf _).2.2.2.2.2.2⟩

theorem HandleLed_scheduler (now_us : Nat) (g : Globals) :
    (HandleLed now_us g).2.all (fun e => !e.fromScheduler) = true ∧
    (HandleLed now_us g).1.g_scan_delay = g.g_scan_delay ∧
    (HandleLed now_us g).1.g_loop_delay = g.g_loop_delay ∧
    (HandleLed now_us g).1.is_scan_running = g.is_scan_running := by
  rw [HandleLed_eq]
  refine ⟨?_, rfl, rfl, rfl⟩
  split <;> simp [Effect.fromScheduler]

theorem not_mem_of_all_not_scheduler (es : List Effect) (e : Effect)
    (hall : es.all (fun x => !x.fromScheduler) = true) (he : e.fromScheduler = true) :
    e ∉ es := by
  intro hmem
  have := List.all_eq_true.mp hall e hmem
  rw [he] at this
  cases this

theorem loopProcess_spec (cfg : Config) (lib : TokenLib) (w : LoopWorld) (g : Globals) :
    (loopProcess cfg lib w g).1.is_scan_running = false ∧
    (loopProcess cfg lib w g).1.g_scan_delay = g.g_scan_delay ∧
    (loopProcess cfg lib w g).1.g_loop_delay
      = (g.g_loop_delay.wait 200 w.millis_loop_wait).2 ∧
    Effect.scanStop ∈ (loopProcess cfg lib w g).2 ∧
    (∀ n, Effect.scanStart n ∉ (loopProcess cfg lib w g).2) ∧
    (Effect.lightSleepMs SLEEP_MS ∈ (loopProcess cfg lib w g).2 ↔
      (g.g_loop_delay.wait 200 w.millis_loop_wait).1 = true) := by
  obtain ⟨hde, hd1, hd2, hd3⟩ := debounceBlock_scheduler cfg lib w.millis_debounce w.trigger
    { g with is_scan_running := false }
  obtain ⟨hle, hl1, hl2, hl3⟩ := HandleLed_scheduler w.led_now_us
    (debounceBlock cfg lib w.millis_debounce w.trigger
      { g with is_scan_running := false }).2.1
  have nd := fun (e : Effect) (he : e.fromScheduler = true) =>
    not_mem_of_all_not_scheduler _ e hde he
  have nl := fun (e : Effect) (he : e.fromScheduler = true) =>
    not_mem_of_all_not_scheduler _ e hle he
  have hld : (HandleLed w.led_now_us (debounceBlock cfg lib w.millis_debounce w.trigger
      { g with is_scan_running := false }).2.1).1.g_loop_delay = g.g_loop_delay := by
    rw [hl2, hd2]
  unfold loopProcess
  simp only [hld]
  cases hw : (g.g_loop_delay.wait 200 w.millis_loop_wait).1
  · simp only [if_true]
    refine ⟨by rw [hl3, hd3], by rw [hl1, hd1], trivial, by simp, ?_, ?_⟩
    · intro n
      simp [nd (Effect.scanStart n) rfl, nl (Effect.scanStart n) rfl]
    · simp [nd (Effect.lightSleepMs SLEEP_MS) rfl, nl (Effect.lightSleepMs SLEEP_MS) rfl]
  · simp only [Bool.true_eq_false, if_false]
    refine ⟨by rw [hl3, hd3], by rw [hl1, hd1], trivial, by simp, ?_, ?_⟩
    · intro n
      simp [nd (Effect.scanStart n) rfl, nl (Effect.scanStart n) rfl]
    · simp

theorem wait_inactive (t : DelayNonBlocking) (d n : Nat) (h : t.active = false) :
    t.wait d n = (false, { start_time := n, active := true }) := by
  unfold DelayNonBlocking.wait
  simp [h]

theorem wait_active_lt (t : DelayNonBlocking) (d n : Nat) (h : t.active = true)
    (hlt : subU32 n t.start_time < d) : t.wait d n = (false, t) := by
  unfold DelayNonBlocking.wait
  simp [h, hlt]

theorem wait_active_ge (t : DelayNonBlocking) (d n : Nat) (h : t.active = true)
    (hge : ¬ subU32 n t.start_time < d) :
    t.wait d n = (true, { start_time := t.start_time, active := false }) := by
  unfold DelayNonBlocking.wait
  simp [h, hge]

theorem loop_station_waiting (cfg : Config) (lib : TokenLib) (w : LoopWorld) (g : Globals)
    (T : Nat) (hsta : w.wifi_mode_ap = false)
    (hinv : g.is_scan_running = g.g_scan_delay.active)
    (hT : T = if g.is_scan_running = true then g.g_scan_delay.start_time
      else w.millis_scan_start)
    (hlt : subU32 w.millis_scan_wait T < 80) :
    (loop cfg lib w g).1.is_scan_running = true ∧
    (loop cfg lib w g).1.g_scan_delay = { start_time := T, active := true } ∧
    (loop cfg lib w g).1.g_loop_delay = g.g_loop_delay ∧
    (loop cfg lib w g).2
      = (if g.is_scan_running = true then [] else [Effect.scanStart SCAN_FAKE_DURATION_SEC]) := by
  unfold loop loopStartScan
  cases hr : g.is_scan_running
  · have ha : g.g_scan_delay.active = false := by rw [← hinv, hr]
    simp only [hr, Bool.false_eq_true, if_false] at hT
    subst hT
    have h80 := wait_active_lt { start_time := w.millis_scan_start, active := true } 80
      w.millis_scan_wait rfl hlt
    simp [hsta, wait_inactive g.g_scan_delay 0 w.millis_scan_start ha, h80]
  · have ha : g.g_scan_delay.active = true := by rw [← hinv, hr]
    simp only [hr, if_true] at hT
    subst hT
    have h80 := wait_active_lt g.g_scan_delay 80 w.millis_scan_wait ha hlt
    simp [hsta, h80]
    cases hsd : g.g_scan_delay with
    | mk st ac =>
      rw [hsd] at ha
      simp only at ha
      rw [ha]
      exact ⟨hr, rfl⟩

theorem loop_station_waiting_latch (cfg : Config) (lib : TokenLib) (w : LoopWorld)
    (g : Globals) (T : Nat) (hsta : w.wifi_mode_ap = false)
    (hinv : g.is_scan_running = g.g_scan_delay.active)
    (hT : T = if g.is_scan_running = true then g.g_scan_delay.start_time
      else w.millis_scan_start)
    (hlt : subU32 w.millis_scan_wait T < 80) :
    (loop cfg lib w g).1.m_detected = g.m_detected ∧
    (loop cfg lib w g).1.g_last_trigger_ms = g.g_last_trigger_ms := by
  unfold loop loopStartScan
  cases hr : g.is_scan_running
  · have ha : g.g_scan_delay.active = false := by rw [← hinv, hr]
    simp only [hr, Bool.false_eq_true, if_false] at hT
    subst hT
    have h80 := wait_active_lt { start_time := w.millis_scan_start, active := true } 80
      w.millis_scan_wait rfl hlt
    simp [hsta, wait_inactive g.g_scan_delay 0 w.millis_scan_start ha, h80]
  · have ha : g.g_scan_delay.active = true := by rw [← hinv, hr]
    simp only [hr, if_true] at hT
    subst hT
    have h80 := wait_active_lt g.g_scan_delay 80 w.millis_scan_wait ha hlt
    simp [hsta, h80]

theorem loop_station_processing (cfg : Config) (lib : TokenLib) (w : LoopWorld) (g : Globals)
    (T : Nat) (hsta : w.wifi_mode_ap = false)
    (hinv : g.is_scan_running = g.g_scan_delay.active)
    (hT : T = if g.is_scan_running = true then g.g_scan_delay.start_time
      else w.millis_scan_start)
    (hge : ¬ subU32 w.millis_scan_wait T < 80) :
    (loop cfg lib w g).1.is_scan_running = false ∧
    (loop cfg lib w g).1.g_scan_delay = { start_time := T, active := false } ∧
    (loop cfg lib w g).1.g_loop_delay = (g.g_loop_delay.wait 200 w.millis_loop_wait).2 ∧
    Effect.scanStop ∈ (loop cfg lib w g).2 ∧
    (Effect.scanStart SCAN_FAKE_DURATION_SEC ∈ (loop cfg lib w g).2
      ↔ g.is_scan_running = false) ∧
    (Effect.lightSleepMs SLEEP_MS ∈ (loop cfg lib w g).2 ↔
      (g.g_loop_delay.wait 200 w.millis_loop_wait).1 = true) := by
  have hp := fun (g1 : Globals) => loopProcess_spec cfg lib w g1
  unfold loop loopStartScan
  cases hr : g.is_scan_running
  · have ha : g.g_scan_delay.active = false := by rw [← hinv, hr]
    simp only [hr, Bool.false_eq_true, if_false] at hT
    subst hT
    have h80 := wait_active_ge { start_time := w.millis_scan_start, active := true } 80
      w.millis_scan_wait rfl hge
    simp only [hsta, Bool.false_eq_true, if_false, if_true,
      wait_inactive g.g_scan_delay 0 w.millis_scan_start ha, h80]
    obtain ⟨h1, h2, h3, h4, h5, h6⟩ := hp
      { g with is_scan_running := true,
               g_scan_delay := { start_time := w.millis_scan_start, active := false } }
    refine ⟨h1, h2, h3, ?_, ?_, ?_⟩
    · exact List.mem_append_right _ h4
    · simp
    · rw [← h6]
      simp [SLEEP_MS]
  · have ha : g.g_scan_delay.active = true := by rw [← hinv, hr]
    simp only [hr, if_true] at hT
    subst hT
    have h80 := wait_active_ge g.g_scan_delay 80 w.millis_scan_wait ha hge
    simp only [hsta, Bool.false_eq_true, Bool.true_eq_false, if_false, h80]
    obtain ⟨h1, h2, h3, h4, h5, h6⟩ := hp
      { g with g_scan_delay := { start_time := g.g_scan_delay.start_time, active := false } }
    refine ⟨h1, h2, h3, ?_, ?_, ?_⟩
    · exact List.mem_append_right _ h4
    · simp [h5]
    · rw [← h6]
      simp

theorem pass_station (cfg : Config) (lib : TokenLib) (w : LoopWorld) (g : Globals)
    (accS accL : Option Nat) (hsta : w.wifi_mode_ap = false)
    (hJ : SchedulerInv accS accL g) :
    SchedulerInv
      (if (passRecord cfg lib w g).startsScan then some w.millis_scan_start else accS)
      (if (passRecord cfg lib w g).armsLoopDelay then some w.millis_loop_wait else accL)
      (loop cfg lib w g).1 ∧
    ((passRecord cfg lib w g).startsScan = true →
      g.g_scan_delay.active = false ∧
      (loopStartScan w g).1.g_scan_delay
        = { start_time := w.millis_scan_start, active := true }) ∧
    ((passRecord cfg lib w g).stopsScan = true →
      ∃ T, (if (passRecord cfg lib w g).startsScan then some w.millis_scan_start else accS)
          = some T ∧ subU32 w.millis_scan_wait T ≥ 80) ∧
    ((passRecord cfg lib w g).sleeps = true →
      (loop cfg lib w g).1.g_loop_delay.active = false ∧
      ∃ T, accL = some T ∧ subU32 w.millis_loop_wait T ≥ 200) ∧
    ((passRecord cfg lib w g).stopsScan = false →
      (loop cfg lib w g).1.m_detected = g.m_detected ∧
      (loop cfg lib w g).1.g_last_trigger_ms = g.g_last_trigger_ms ∧
      Effect.enterTriggerGate ∉ (loop cfg lib w g).2) := by
  obtain ⟨hinv, hS, hL⟩ := hJ
  have hstart : g.is_scan_running = false →
      g.g_scan_delay.active = false ∧
      (loopStartScan w g).1.g_scan_delay
        = { start_time := w.millis_scan_start, active := true } := by
    intro hr
    have ha : g.g_scan_delay.active = false := by rw [← hinv, hr]
    refine ⟨ha, ?_⟩
    unfold loopStartScan
    simp [hr, wait_inactive g.g_scan_delay 0 w.millis_scan_start ha]
  by_cases hlt : subU32 w.millis_scan_wait
      (if g.is_scan_running = true then g.g_scan_delay.start_time
        else w.millis_scan_start) < 80
  · obtain ⟨h1, h2, h3, h4⟩ := loop_station_waiting cfg lib w g _ hsta hinv rfl hlt
    have hstop : (passRecord cfg lib w g).stopsScan = false := by
      simp only [PassRecord.stopsScan, passRecord, h4]
      cases g.is_scan_running <;> simp
    have hsleep : (passRecord cfg lib w g).sleeps = false := by
      simp only [PassRecord.sleeps, passRecord, h4]
      cases g.is_scan_running <;> simp
    have harm : (passRecord cfg lib w g).armsLoopDelay = false := by
      simp only [PassRecord.armsLoopDelay, passRecord, h3]
      cases g.g_loop_delay.active <;> rfl
    have hss : (passRecord cfg lib w g).startsScan = !g.is_scan_running := by
      simp only [PassRecord.startsScan, passRecord, h4]
      cases g.is_scan_running <;> simp
    obtain ⟨hm, hl⟩ := loop_station_waiting_latch cfg lib w g _ hsta hinv rfl hlt
    have hnt : Effect.enterTriggerGate ∉ (loop cfg lib w g).2 := by
      rw [h4]
      cases g.is_scan_running <;> simp
    rw [hstop, hsleep, harm, hss]
    refine ⟨⟨by rw [h1, h2], ?_, ?_⟩, ?_, fun c => (by cases c), fun c => (by cases c),
      fun _ => ⟨hm, hl, hnt⟩⟩
    · intro _
      rw [h2]
      cases hr : g.is_scan_running
      · simp
      · have ha : g.g_scan_delay.active = true := by rw [← hinv, hr]
        simpa using hS ha
    · intro ha
      rw [h3] at ha ⊢
      simpa using hL ha
    · intro hr
      exact hstart (by simpa using hr)
  · obtain ⟨h1, h2, h3, h4, h5, h6⟩ :=
      loop_station_processing cfg lib w g _ hsta hinv rfl hlt
    have hst : (passRecord cfg lib w g).stopsScan = true := by
      simpa [PassRecord.stopsScan, passRecord] using h4
    have hss : (passRecord cfg lib w g).startsScan = !g.is_scan_running := by
      simp only [PassRecord.startsScan, passRecord]
      cases hr : g.is_scan_running
      · simpa using h5.mpr hr
      · simp only [Bool.not_true, decide_eq_false_iff_not]
        intro c
        have := h5.mp c
        rw [hr] at this
        cases this
    have hsl : (passRecord cfg lib w g).sleeps
        = (g.g_loop_delay.wait 200 w.millis_loop_wait).1 := by
      simp only [PassRecord.sleeps, passRecord]
      cases hw : (g.g_loop_delay.wait 200 w.millis_loop_wait).1
      · simp only [decide_eq_false_iff_not]
        intro c
        have := h6.mp c
        rw [hw] at this
        cases this
      · simpa using h6.mpr hw
    have harm : (passRecord cfg lib w g).armsLoopDelay
        = (!g.g_loop_delay.active && (g.g_loop_delay.wait 200 w.millis_loop_wait).2.active) := by
      simp only [PassRecord.armsLoopDelay, passRecord, h3]
    rw [hss, hsl, harm, hst]
    refine ⟨⟨by rw [h1, h2], ?_, ?_⟩, ?_, ?_, ?_, fun c => (by cases c)⟩
    · intro ha
      rw [h2] at ha
      cases ha
    · rw [h3]
      cases hla : g.g_loop_delay.active
      · rw [wait_inactive g.g_loop_delay 200 w.millis_loop_wait hla]
        intro _
        simp
      · by_cases h200 : subU32 w.millis_loop_wait g.g_loop_delay.start_time < 200
        · rw [wait_active_lt g.g_loop_delay 200 w.millis_loop_wait hla h200]
          intro _
          simpa using hL hla
        · rw [wait_active_ge g.g_loop_delay 200 w.millis_loop_wait hla h200]
          intro c
          cases c
    · intro hr
      exact hstart (by simpa using hr)
    · intro _
      cases hr : g.is_scan_running
      · refine ⟨w.millis_scan_start, by simp, ?_⟩
        simp only [hr, Bool.false_eq_true, if_false] at hlt
        omega
      · have ha : g.g_scan_delay.active = true := by rw [← hinv, hr]
        refine ⟨g.g_scan_delay.start_time, by simpa using hS ha, ?_⟩
        simp only [hr, if_true] at hlt
        omega
    · intro hw
      rw [h3]
      cases hla : g.g_loop_delay.active
      · rw [wait_inactive g.g_loop_delay 200 w.millis_loop_wait hla] at hw
        cases hw
      · by_cases h200 : subU32 w.millis_loop_wait g.g_loop_delay.start_time < 200
        · rw [wait_active_lt g.g_loop_delay 200 w.millis_loop_wait hla h200] at hw
          cases hw
        · rw [wait_active_ge g.g_loop_delay 200 w.millis_loop_wait hla h200]
          exact ⟨rfl, g.g_loop_delay.start_time, hL hla, by omega⟩

theorem runLoop_phases (cfg : Config) (lib : TokenLib) :
    ∀ (pre : List PassRecord) (ws : List LoopWorld) (g : Globals) (accS accL : Option Nat)
      (x : PassRecord) (post : List PassRecord),
      SchedulerInv accS accL g →
      (∀ w ∈ ws, w.wifi_mode_ap = false) →
      runLoop cfg lib g ws = pre ++ x :: post →
      (x.startsScan = true →
        x.before.g_scan_delay.active = false ∧
        (loopStartScan x.world x.before).1.g_scan_delay
          = { start_time := x.world.millis_scan_start, active := true }) ∧
      (x.stopsScan = true →
        ∃ T, scanStartedAt accS (pre ++ [x]) = some T ∧
          subU32 x.world.millis_scan_wait T ≥ 80) ∧
      (x.sleeps = true →
        x.after.g_loop_delay.active = false ∧
        ∃ T, loopDelayArmedAt accL pre = some T ∧
          subU32 x.world.millis_loop_wait T ≥ 200) ∧
      (x.stopsScan = false →
        x.after.m_detected = x.before.m_detected ∧
        x.after.g_last_trigger_ms = x.before.g_last_trigger_ms ∧
        Effect.enterTriggerGate ∉ x.effects) := by
  intro pre
  induction pre with
  | nil =>
    intro ws g accS accL x post hJ hsta hrun
    cases ws with
    | nil => simp [runLoop] at hrun
    | cons w ws1 =>
      simp only [runLoop, List.nil_append, List.cons.injEq] at hrun
      obtain ⟨hx, _⟩ := hrun
      have hx1 : x = passRecord cfg lib w g := hx.symm
      subst hx1
      obtain ⟨_, ha, hb, hc, hd⟩ := pass_station cfg lib w g accS accL
        (hsta w (List.mem_cons_self _ _)) hJ
      refine ⟨ha, ?_, hc, hd⟩
      intro hs
      obtain ⟨T, hT, h80⟩ := hb hs
      exact ⟨T, by simpa [scanStartedAt, passRecord] using hT, h80⟩
  | cons p pre1 ih =>
    intro ws g accS accL x post hJ hsta hrun
    cases ws with
    | nil => simp [runLoop] at hrun
    | cons w ws1 =>
      simp only [runLoop, List.cons_append, List.cons.injEq] at hrun
      obtain ⟨hp, hrest⟩ := hrun
      have hp1 : p = passRecord cfg lib w g := hp.symm
      subst hp1
      obtain ⟨hJ1, _, _, _, _⟩ := pass_station cfg lib w g accS accL
        (hsta w (List.mem_cons_self _ _)) hJ
      obtain ⟨ha, hb, hc, hd⟩ := ih ws1 (loop cfg lib w g).1 _ _ x post hJ1
        (fun v hv => hsta v (List.mem_cons_of_mem _ hv)) hrest
      refine ⟨ha, ?_, ?_, hd⟩
      · intro hs
        obtain ⟨T, hT, h80⟩ := hb hs
        exact ⟨T, by simpa [scanStartedAt, passRecord] using hT, h80⟩
      · intro hs
        obtain ⟨h0, T, hT, h200⟩ := hc hs
        exact ⟨h0, T, by simpa [loopDelayArmedAt, passRecord] using hT, h200⟩

/-! ## C16: the scheduler -/

/-- C16: in a run of `loop()` in station mode from a state with no scan running and both
timers inactive, for every pass `x` of the run, with `pre` the passes before it:
(a) when `x` starts a scan, `g_scan_delay` was inactive before and `wait(0)` arms it
with the reading of that moment; (b) when `x` stops the scan (and goes on to the
debounce block), the reading of its `wait(80)` is at least 80 ms after the reading taken
when the scan was last started; (c) when `x` enters `lightSleepMs`, the reading of its
`wait(200)` is at least 200 ms after the reading at which `g_loop_delay` was last armed,
and `g_loop_delay` is inactive after the pass; a pass that does not stop the scan leaves
`m_detected` and `g_last_trigger_ms` as they were and does not enter `TriggerGate`. -/
theorem scheduler_phase_timing (cfg : Config) (lib : TokenLib) (g : Globals)
    (ws : List LoopWorld) (pre : List PassRecord) (x : PassRecord) (post : List PassRecord)
    (hinit : g.is_scan_running = false ∧ g.g_scan_delay.active = false ∧
      g.g_loop_delay.active = false)
    (hsta : ∀ w ∈ ws, w.wifi_mode_ap = false)
    (hrun : runLoop cfg lib g ws = pre ++ x :: post) :
    (x.startsScan = true →
      x.before.g_scan_delay.active = false ∧
      (loopStartScan x.world x.before).1.g_scan_delay
        = { start_time := x.world.millis_scan_start, active := true }) ∧
    (x.stopsScan = true →
      ∃ T, scanStartedAt none (pre ++ [x]) = some T ∧
        subU32 x.world.millis_scan_wait T ≥ 80) ∧
    (x.sleeps = true →
      x.after.g_loop_delay.active = false ∧
      ∃ T, loopDelayArmedAt none pre = some T ∧
        subU32 x.world.millis_loop_wait T ≥ 200) ∧
    (x.stopsScan = false →
      x.after.m_detected = x.before.m_detected ∧
      x.after.g_last_trigger_ms = x.before.g_last_trigger_ms ∧
      Effect.enterTriggerGate ∉ x.effects) := by
  have hJ : SchedulerInv none none g := by
    refine ⟨by rw [hinit.1, hinit.2.1], ?_, ?_⟩
    · intro h; rw [hinit.2.1] at h; cases h
    · intro h; rw [hinit.2.2] at h; cases h
  exact runLoop_phases cfg lib pre ws g none none x post hJ hsta hrun

/-- C16 on passes at 1000, 1050, 1090, 1100, 1190, 1200, 1290, 1300 ms from the boot
state: the pass at 1290 stops the scan started at 1200 and sleeps, 200 ms after
`g_loop_delay` was armed at 1090. -/
theorem scheduler_phase_timing_witness :
    sampleTrace.map (fun r => r.startsScan)
      = [true, false, false, true, false, true, false, true] ∧
    sampleTrace.map (fun r => r.stopsScan)
      = [false, false, true, false, true, false, true, false] ∧
    sampleTrace.map (fun r => r.sleeps)
      = [false, false, false, false, false, false, true, false] ∧
    (∃ T, scanStartedAt none (sampleTrace.take 6 ++ [samplePass]) = some T ∧
      subU32 samplePass.world.millis_scan_wait T ≥ 80) ∧
    (samplePass.after.g_loop_delay.active = false ∧
      ∃ T, loopDelayArmedAt none (sampleTrace.take 6) = some T ∧
        subU32 samplePass.world.millis_loop_wait T ≥ 200) :=
  have t := scheduler_phase_timing sampleConfig sampleLib (bootGlobals true) sampleWorlds
    (sampleTrace.take 6) samplePass (sampleTrace.drop 7) ⟨rfl, rfl, rfl⟩ (by decide) (by rfl)
  ⟨by decide, by decide, by decide, t.2.1 (by decide), t.2.2.1 (by decide)⟩

end PalGate
